import Mathlib

/-!
Verification of the SJ Panel hosting control panel (`app/main.py`).

The development shallowly embeds the Python source:

* Python strings are `String` / `List Char`; the relevant `str` methods
  (`strip`, `lower`, `startswith`, `endswith`, `in`, `split`) are embedded as
  character-list functions (`pyStrip`, `pyLower`, ...).  The source only feeds
  ASCII data through `lower`, so the embedding lowers ASCII letters.
* `os.path.join` and `os.path.normpath` (POSIX flavour, as used by the app)
  are embedded as `pyJoin` / `normpath`, following the CPython `posixpath`
  implementation component by component.
* Each Flask handler becomes a pure function from its form inputs, the parsed
  contents of the flat JSON files, and the outcomes of external calls
  (subprocess results, raised exceptions - supplied as oracle arguments) to
  the new file contents, a trace of side-effect events (`Ev`), and a response.
* `json.dump(..., indent=2)` / `json.load` are embedded as a character-level
  serializer and parser (`dumpJson` / `loadJson`), proved to round-trip.
-/

/-! ### Python string primitives -/

/-- Whitespace stripped by `str.strip()` (the ASCII part, which is all the
panel ever feeds it). -/
def isPySpace (c : Char) : Bool :=
  c = ' ' || c = '\t' || c = '\n' || c = '\x0d' || c = '\x0b' || c = '\x0c'

/-- Python `str.strip()` on the character list: drop whitespace at both ends. -/
def pyStripL (l : List Char) : List Char :=
  ((l.dropWhile isPySpace).reverse.dropWhile isPySpace).reverse

/-- Python `str.strip()`. -/
def pyStrip (s : String) : String := ⟨pyStripL s.data⟩

/-- Python `str.lower()` on one character (ASCII; the panel only lowercases
ASCII form input). -/
def pyLowerChar (c : Char) : Char :=
  if 'A' ≤ c ∧ c ≤ 'Z' then Char.ofNat (c.toNat + 32) else c

/-- Python `str.lower()`. -/
def pyLower (s : String) : String := ⟨s.data.map pyLowerChar⟩

/-- Python `a.startswith(b)` on character lists. -/
def startsL : List Char → List Char → Bool
  | [], _ => true
  | _ :: _, [] => false
  | p :: ps, q :: qs => p = q && startsL ps qs

/-- Python `needle in hay` (substring containment) on character lists. -/
def isSubstrL (needle : List Char) : List Char → Bool
  | [] => startsL needle []
  | c :: t => startsL needle (c :: t) || isSubstrL needle t

/-- Python `needle in hay` (substring containment). -/
def pyIn (needle hay : String) : Bool := isSubstrL needle.data hay.data

/-- Python `s.endswith(t)` for the single-character suffixes the code uses. -/
def endsWithCharL (l : List Char) (c : Char) : Bool := l.getLastD ' ' = c && l ≠ []

/-! ### `posixpath.join` and `posixpath.normpath` -/

/-- Two-argument `os.path.join` (POSIX): an absolute second component replaces
the first; otherwise a separator is inserted unless one is already there. -/
def pyJoinL (a b : List Char) : List Char :=
  if startsL ['/'] b then b
  else if a = [] then a ++ b
  else if endsWithCharL a '/' then a ++ b
  else a ++ '/' :: b

/-- Two-argument `os.path.join` (POSIX) on strings. -/
def pyJoin (a b : String) : String := ⟨pyJoinL a.data b.data⟩

/-- Decimal digits, most significant first. -/
def natDigits (n : Nat) : List Char :=
  if h : n < 10 then [Char.ofNat (48 + n % 10)]
  else natDigits (n / 10) ++ [Char.ofNat (48 + n % 10)]
termination_by n
decreasing_by exact Nat.div_lt_self (by omega) (by omega)

/-- A JSON value as the panel's flat files hold it: arrays of objects whose
fields are strings and booleans.  Integers cover the rest of the number
grammar the handlers could store; floats never occur in these files and are
out of scope. -/
inductive Json where
  | null
  | bool (b : Bool)
  | int (n : Int)
  | str (s : String)
  | arr (elems : List Json)
  | obj (members : List (String × Json))
deriving Repr

/-- An integer as `json.dump` prints it. -/
def intChars (i : Int) : List Char :=
  (if i < 0 then ['-'] else []) ++ natDigits i.natAbs

/-- Python `path.split('/')`: split a character list at every slash. -/
def splitSlash : List Char → List (List Char)
  | [] => [[]]
  | '/' :: rest => [] :: splitSlash rest
  | c :: rest =>
    match splitSlash rest with
    | [] => [[c]]
    | g :: gs => (c :: g) :: gs

/-- Rejoin components with `'/'` (Python `sep.join(comps)`). -/
def joinSlash : List (List Char) → List Char
  | [] => []
  | [x] => x
  | x :: xs => x ++ '/' :: joinSlash xs

/-- One step of `posixpath.normpath`'s component loop.  The accumulator is the
`new_comps` list in reverse.  Mirrors the CPython conditions exactly:
`''`/`'.'` are dropped; `'..'` is kept when the path is relative with nothing
to pop or the previous component is itself `'..'`; otherwise it pops, and at
the root of an absolute path it is simply dropped. -/
def normStep (initialSlashes : Nat) (acc : List (List Char)) (comp : List Char) :
    List (List Char) :=
  if comp = [] ∨ comp = ['.'] then acc
  else if comp ≠ ['.', '.'] ∨ (initialSlashes = 0 ∧ acc = []) ∨ acc.headD [] = ['.', '.'] then
    comp :: acc
  else
    match acc with
    | [] => []
    | _ :: rest => rest

/-- `posixpath.normpath` on a character list, following CPython: count initial
slashes (two are preserved, three or more collapse to one), fold the component
loop, rejoin, and return `'.'` for an empty result. -/
def normpathL (p : List Char) : List Char :=
  if p = [] then ['.']
  else
    let initialSlashes : Nat :=
      if startsL ['/'] p then
        (if startsL ['/', '/'] p ∧ ¬ startsL ['/', '/', '/'] p then 2 else 1)
      else 0
    let comps := splitSlash p
    let newComps := (comps.foldl (normStep initialSlashes) []).reverse
    let res := List.replicate initialSlashes '/' ++ joinSlash newComps
    if res = [] then ['.'] else res

/-- `os.path.normpath` on strings. -/
def normpath (p : String) : String := ⟨normpathL p.data⟩

/-! ### Constants of `app/main.py` -/

def USERS_FILE : String := "/data/users.json"
def DOMAINS_FILE : String := "/data/domains.json"
def WEBSITES_DIR : String := "/var/www"
def NGINX_SITES_AVAILABLE : String := "/etc/nginx/sites-available"
def NGINX_SITES_ENABLED : String := "/etc/nginx/sites-enabled"
def DATABASES_FILE : String := "/data/databases.json"
def EMAILS_FILE : String := "/data/emails.json"
def BACKUPS_DIR : String := "/data/backups"

/-! ### `get_safe_path` (file browser) -/

/-- The `get_safe_path` helper of the file browser: empty input names the
website root; otherwise join to `WEBSITES_DIR`, normalize, and accept exactly
when the result has the normalized root as a *string* prefix. -/
def get_safe_path (path : String) : Option String :=
  if path = "" then some WEBSITES_DIR
  else
    let full_path := normpathL (pyJoinL WEBSITES_DIR.data path.data)
    if ¬ List.isPrefixOf (normpathL WEBSITES_DIR.data) full_path then none
    else some ⟨full_path⟩

/-- Being inside the website root directory: the root itself, or a path that
continues the root with a `/` separator. -/
def insideWebsitesDir (p : String) : Prop :=
  normpath p = WEBSITES_DIR ∨ List.isPrefixOf (WEBSITES_DIR ++ "/").data (normpath p).data

instance (p : String) : Decidable (insideWebsitesDir p) := by
  unfold insideWebsitesDir; infer_instance

/-! ### `is_valid_domain` - the regex `^[a-zA-Z0-9]([a-zA-Z0-9-]{0,61}[a-zA-Z0-9])?(\.[a-zA-Z]{2,})+$` -/

/-- The character class `[a-zA-Z0-9]` (Python `re` is ASCII-ranged here). -/
def isAlnumA (c : Char) : Bool := c.isAlpha || c.isDigit

/-- Matches `[a-zA-Z0-9-]{0,61}[a-zA-Z0-9]` against a whole list: 1 to 62
characters, all but the last in the extended class, the last alphanumeric. -/
def matchMiddle (l : List Char) : Bool :=
  !l.isEmpty && decide (l.length ≤ 62) &&
    l.dropLast.all (fun c => isAlnumA c || c = '-') && isAlnumA (l.getLastD '-')

/-- Matches the label part `[a-zA-Z0-9]([a-zA-Z0-9-]{0,61}[a-zA-Z0-9])?`
against a whole list. -/
def matchLabel : List Char → Bool
  | [] => false
  | c :: rest => isAlnumA c && (rest.isEmpty || matchMiddle rest)

/-- Continues a `[a-zA-Z]{2,}` run inside `(\.[a-zA-Z]{2,})+$`: more letters,
a new `\.`-group, the end of input, or the final newline `$` also accepts. -/
def matchAfterLetters : List Char → Bool
  | [] => true
  | c :: rest =>
    if c = '.' then
      match rest with
      | c1 :: c2 :: rest2 => c1.isAlpha && c2.isAlpha && matchAfterLetters rest2
      | _ => false
    else if rest = [] then c.isAlpha || c = '\n'
    else c.isAlpha && matchAfterLetters rest

/-- Matches `(\.[a-zA-Z]{2,})+$` against a whole list (with Python `$` also
accepting a single final newline). -/
def matchGroups (l : List Char) : Bool :=
  match l with
  | c :: c1 :: c2 :: rest => c = '.' && c1.isAlpha && c2.isAlpha && matchAfterLetters rest
  | _ => false

/-- `is_valid_domain`: the anchored regex matches exactly when the string
splits into a label matched by `matchLabel` followed by a dot-group tail
matched by `matchGroups`. -/
def is_valid_domain (domain : String) : Bool :=
  let cs := domain.data
  (List.range (cs.length + 1)).any fun i => matchLabel (cs.take i) && matchGroups (cs.drop i)

/-- The character class `[a-z0-9_]` of the database-name regex. -/
def isDbChar (c : Char) : Bool := c.isLower || c.isDigit || c = '_'

/-- The character class `[a-z0-9._-]` of the email-user regex. -/
def isEmailChar (c : Char) : Bool := c.isLower || c.isDigit || c = '.' || c = '_' || c = '-'

/-- Tail of an anchored `^[class]+$` match: every further character is in the
class, with Python `$` also accepting a single final newline. -/
def matchPlusTail (cls : Char → Bool) : List Char → Bool
  | [] => true
  | c :: rest => if rest = [] then cls c || c = '\n' else cls c && matchPlusTail cls rest

/-- An anchored Python `re.match(r'^[class]+$', s)`: at least one character,
all from the class (modulo the final-newline `$` rule). -/
def matchPlus (cls : Char → Bool) : List Char → Bool
  | [] => false
  | c :: rest => cls c && matchPlusTail cls rest

/-! ### Records, world state, events, responses -/

/-- A record of `domains.json`, as built by `add_domain`. -/
structure DomainRec where
  name : String
  path : String
  ssl : Bool
  created : String
  status : String
deriving DecidableEq, Repr

/-- A record of `databases.json`, as built by `create_database`. -/
structure DbRec where
  name : String
  user : String
  password : String
  created : String
deriving DecidableEq, Repr

/-- A record of `emails.json`, as built by `create_email`. -/
structure EmailRec where
  email : String
  user : String
  domain : String
  password : String
  quota : String
  created : String
deriving DecidableEq, Repr

/-- A record of `users.json` (the values of the username-keyed dict). -/
structure UserRec where
  username : String
  password : String
  role : String
deriving DecidableEq, Repr

/-- The state a request can read and write: the set of existing file-system
paths, and the parsed contents of the flat JSON files. -/
structure World where
  fs : List String
  domains : List DomainRec
  databases : List DbRec
  emails : List EmailRec
  users : List (String × UserRec)
deriving DecidableEq, Repr

/-- One observable side effect of a handler, in program order. -/
inductive Ev where
  | readJson (file : String)
  | writeJson (file : String)
  | fsOp (op : String) (path : String)
  | extCall (prog : String) (args : String)
  | flash (msg : String) (cat : String)
deriving DecidableEq, Repr

/-- The handler's HTTP-level result. -/
inductive Resp where
  | render (template : String)
  | redirect (endpoint : String)
  | sendFile (path : String)
deriving DecidableEq, Repr

/-- Record a path as existing (`os.makedirs(..., exist_ok=True)`, file
creation, `os.symlink`). -/
def fsAdd (fs : List String) (p : String) : List String := if p ∈ fs then fs else p :: fs

/-- Remove a path (`os.remove`). -/
def fsRemove (fs : List String) (p : String) : List String := fs.filter (· ≠ p)

/-! ### Domain management -/

/-- Outcome of one `reload_nginx()` call, supplied by the caller: both
subprocess steps succeed, `nginx -t` fails, `nginx -s reload` fails, or the
binary is missing (`FileNotFoundError`, treated as success). -/
inductive NginxOracle where
  | ok
  | testFails
  | reloadFails
  | notInstalled
deriving DecidableEq, Repr

/-- `reload_nginx`: run `nginx -t` then `nginx -s reload`; a failed check
returns `False`, a missing binary returns `True`. -/
def reload_nginx : NginxOracle → List Ev × Bool
  | .ok => ([.extCall "nginx" "-t", .extCall "nginx" "-s reload"], true)
  | .testFails => ([.extCall "nginx" "-t"], false)
  | .reloadFails => ([.extCall "nginx" "-t", .extCall "nginx" "-s reload"], false)
  | .notInstalled => ([.extCall "nginx" "-t"], true)

/-- `create_domain_files`: make the document root, write the default
`index.html` when absent, write the nginx site config, and symlink it into
`sites-enabled` when absent.  Returns the new world, the events, and the
document root (the function's return value). -/
def create_domain_files (w : World) (domain_name : String) : World × List Ev × String :=
  let document_root := pyJoin (pyJoin WEBSITES_DIR domain_name) "public_html"
  let fs1 := fsAdd w.fs document_root
  let index_path := pyJoin document_root "index.html"
  let fs2 := if index_path ∈ fs1 then fs1 else fsAdd fs1 index_path
  let evIdx : List Ev := if index_path ∈ fs1 then [] else [.fsOp "write" index_path]
  let nginx_config_path := pyJoin NGINX_SITES_AVAILABLE domain_name
  let fs3 := fsAdd (fsAdd (fsAdd fs2 NGINX_SITES_AVAILABLE) NGINX_SITES_ENABLED) nginx_config_path
  let symlink_path := pyJoin NGINX_SITES_ENABLED domain_name
  let fs4 := if symlink_path ∈ fs3 then fs3 else fsAdd fs3 symlink_path
  let evLink : List Ev := if symlink_path ∈ fs3 then [] else [.fsOp "symlink" symlink_path]
  ({ w with fs := fs4 },
   [Ev.fsOp "makedirs" document_root] ++ evIdx ++
     [Ev.fsOp "makedirs" NGINX_SITES_AVAILABLE, Ev.fsOp "makedirs" NGINX_SITES_ENABLED,
      Ev.fsOp "write" nginx_config_path] ++ evLink,
   document_root)

/-- Oracle for one `add_domain` POST: whether the file-system block raises
(the exception is modelled as raised at its start), and the nginx outcome. -/
structure AddOracle where
  fsExc : Option String
  nginx : NginxOracle
deriving DecidableEq, Repr

/-- The `add_domain` POST handler: strip and lowercase the form name, validate
it, reject duplicates, create the files, reload nginx (result ignored), append
the new record, and save - flashing success; any exception in the `try` block
flashes an error and leaves the list unsaved. -/
def add_domain (form_domain_name : String) (now : String) (orc : AddOracle) (w : World) :
    World × List Ev × Resp :=
  let domain_name := pyLower (pyStrip form_domain_name)
  if domain_name = "" then
    (w, [.flash "กรุณากรอกชื่อโดเมน" "error"], .render "add_domain.html")
  else if ¬ is_valid_domain domain_name then
    (w, [.flash "รูปแบบโดเมนไม่ถูกต้อง" "error"], .render "add_domain.html")
  else
    let domains_list := w.domains
    if domains_list.any (fun d => d.name = domain_name) then
      (w, [.readJson DOMAINS_FILE, .flash ("โดเมน " ++ domain_name ++ " มีอยู่แล้ว") "error"],
       .render "add_domain.html")
    else
      match orc.fsExc with
      | some e =>
        (w, [.readJson DOMAINS_FILE, .flash ("เกิดข้อผิดพลาด: " ++ e) "error"],
         .render "add_domain.html")
      | none =>
        let cdf := create_domain_files w domain_name
        let document_root := cdf.2.2
        let new_domain : DomainRec :=
          { name := domain_name, path := document_root, ssl := false,
            created := now, status := "active" }
        ({ cdf.1 with domains := domains_list ++ [new_domain] },
         [Ev.readJson DOMAINS_FILE] ++ cdf.2.1 ++ (reload_nginx orc.nginx).1 ++
           [Ev.writeJson DOMAINS_FILE,
            Ev.flash ("โดเมน " ++ domain_name ++ " ถูกเพิ่มเรียบร้อยแล้ว!") "success"],
         .redirect "domains")

/-- Remove the first record with the given name (the loop + `pop` + `break`
of `delete_domain`); `none` when no record matches. -/
def popDomain : List DomainRec → String → Option (List DomainRec)
  | [], _ => none
  | d :: rest, n =>
    if d.name = n then some rest else (popDomain rest n).map (d :: ·)

/-- `delete_domain_files`: remove the `sites-enabled` symlink and the
`sites-available` config when they exist (website files are kept). -/
def delete_domain_files (w : World) (domain_name : String) : World × List Ev :=
  let symlink_path := pyJoin NGINX_SITES_ENABLED domain_name
  let fs1 := if symlink_path ∈ w.fs then fsRemove w.fs symlink_path else w.fs
  let ev1 : List Ev := if symlink_path ∈ w.fs then [.fsOp "remove" symlink_path] else []
  let nginx_config_path := pyJoin NGINX_SITES_AVAILABLE domain_name
  let fs2 := if nginx_config_path ∈ fs1 then fsRemove fs1 nginx_config_path else fs1
  let ev2 : List Ev := if nginx_config_path ∈ fs1 then [.fsOp "remove" nginx_config_path] else []
  ({ w with fs := fs2 }, ev1 ++ ev2)

/-- Oracle for one `delete_domain` POST. -/
structure DelDomainOracle where
  exc : Option String
  nginx : NginxOracle
deriving DecidableEq, Repr

/-- The `delete_domain` handler: pop the record, delete the nginx files,
reload nginx, save; a missing domain or an exception flashes an error. -/
def delete_domain (domain_name : String) (orc : DelDomainOracle) (w : World) :
    World × List Ev × Resp :=
  match popDomain w.domains domain_name with
  | none =>
    (w, [.readJson DOMAINS_FILE, .flash ("ไม่พบโดเมน " ++ domain_name) "error"],
     .redirect "domains")
  | some domains2 =>
    match orc.exc with
    | some e =>
      (w, [.readJson DOMAINS_FILE, .flash ("เกิดข้อผิดพลาด: " ++ e) "error"], .redirect "domains")
    | none =>
      let ddf := delete_domain_files w domain_name
      ({ ddf.1 with domains := domains2 },
       [Ev.readJson DOMAINS_FILE] ++ ddf.2 ++ (reload_nginx orc.nginx).1 ++
         [Ev.writeJson DOMAINS_FILE, Ev.flash ("โดเมน " ++ domain_name ++ " ถูกลบแล้ว") "success"],
       .redirect "domains")

/-! ### SSL management -/

/-- Outcome of the single certbot invocation inside `enable_ssl_for_domain`. -/
inductive CertbotOracle where
  | success
  | failRet (stderr : String)
  | timeout
  | notFound
  | otherExc (msg : String)
deriving DecidableEq, Repr

/-- `enable_ssl_for_domain`: one certbot run; `(ok, message)` per the source's
return-code check and exception handlers. -/
def enable_ssl_for_domain (domain_name : String) (orc : CertbotOracle) :
    List Ev × Bool × String :=
  let ev := [Ev.extCall "certbot"
    ("--nginx -d " ++ domain_name ++ " -d www." ++ domain_name ++
     " --non-interactive --agree-tos --email admin@" ++ domain_name ++ " --redirect")]
  match orc with
  | .success => (ev, true, "SSL certificate installed successfully")
  | .failRet stderr => (ev, false, if stderr = "" then "Certbot failed" else stderr)
  | .timeout => (ev, false, "Certbot timed out")
  | .notFound => (ev, false, "Certbot not installed")
  | .otherExc m => (ev, false, m)

/-- First record with the given name (`toggle_ssl`'s find loop). -/
def findDomain : List DomainRec → String → Option DomainRec
  | [], _ => none
  | d :: rest, n => if d.name = n then some d else findDomain rest n

/-- Set `ssl := True` on the first record with the given name (the in-place
dict mutation of `toggle_ssl`). -/
def setSslFirst : List DomainRec → String → List DomainRec
  | [], _ => []
  | d :: rest, n =>
    if d.name = n then { d with ssl := true } :: rest else d :: setSslFirst rest n

/-- The `toggle_ssl` handler: missing domain and already-enabled SSL short
circuit; otherwise one certbot attempt, and only success updates and saves the
list - failure flashes the message and returns. -/
def toggle_ssl (domain_name : String) (orc : CertbotOracle) (w : World) :
    World × List Ev × Resp :=
  match findDomain w.domains domain_name with
  | none =>
    (w, [.readJson DOMAINS_FILE, .flash ("ไม่พบโดเมน " ++ domain_name) "error"],
     .redirect "domains")
  | some domain_info =>
    if domain_info.ssl then
      (w, [.readJson DOMAINS_FILE, .flash ("โดเมน " ++ domain_name ++ " มี SSL อยู่แล้ว") "info"],
       .redirect "domains")
    else
      let essl := enable_ssl_for_domain domain_name orc
      let evCert := essl.1
      let success := essl.2.1
      let message := essl.2.2
      if success then
        ({ w with domains := setSslFirst w.domains domain_name },
         [Ev.readJson DOMAINS_FILE] ++ evCert ++
           [Ev.writeJson DOMAINS_FILE,
            Ev.flash ("เปิดใช้งาน SSL สำหรับ " ++ domain_name ++ " สำเร็จ!") "success"],
         .redirect "domains")
      else
        (w, [Ev.readJson DOMAINS_FILE] ++ evCert ++
          [Ev.flash ("ไม่สามารถเปิด SSL ได้: " ++ message) "error"], .redirect "domains")

/-! ### Database management -/

/-- Oracle for one `create_database` POST: whether `create_mysql_database`
raises, and the `generate_password()` value used when the form password is
empty. -/
structure CreateDbOracle where
  mysqlExc : Option String
  genPw : String
deriving DecidableEq, Repr

/-- The `create_database` handler: validate, default the password, reject
duplicates, create in MySQL, then append and save; an exception from the MySQL
step flashes an error and skips the append and save. -/
def create_database (form_db_name form_db_user form_db_pass : String) (now : String)
    (orc : CreateDbOracle) (w : World) : World × List Ev × Resp :=
  let db_name := pyLower (pyStrip form_db_name)
  let db_user := pyLower (pyStrip form_db_user)
  let db_password := pyStrip form_db_pass
  if db_name = "" ∨ db_user = "" then
    (w, [.flash "กรุณากรอกข้อมูลให้ครบ" "error"], .redirect "databases")
  else if ¬ (matchPlus isDbChar db_name.data ∧ matchPlus isDbChar db_user.data) then
    (w, [.flash "ชื่อ Database และ User ต้องเป็นตัวอักษรภาษาอังกฤษ, ตัวเลข หรือ _ เท่านั้น" "error"],
     .redirect "databases")
  else
    let db_password := if db_password = "" then orc.genPw else db_password
    if w.databases.any (fun d => d.name = db_name) then
      (w, [.readJson DATABASES_FILE, .flash ("Database " ++ db_name ++ " มีอยู่แล้ว") "error"],
       .redirect "databases")
    else
      let evSql := [Ev.extCall "pymysql" ("CREATE DATABASE " ++ db_name ++ " / CREATE USER " ++ db_user)]
      match orc.mysqlExc with
      | some e =>
        (w, [Ev.readJson DATABASES_FILE] ++ evSql ++
          [Ev.flash ("เกิดข้อผิดพลาด: " ++ e) "error"], .redirect "databases")
      | none =>
        let new_db : DbRec :=
          { name := db_name, user := db_user, password := db_password, created := now }
        ({ w with databases := w.databases ++ [new_db] },
         [Ev.readJson DATABASES_FILE] ++ evSql ++
           [Ev.writeJson DATABASES_FILE,
            Ev.flash ("Database " ++ db_name ++ " สร้างเรียบร้อยแล้ว! User: " ++ db_user ++
              " / Password: " ++ db_password) "success"],
         .redirect "databases")

/-- Find-and-pop of `delete_database`: the matched record and the remainder. -/
def popDb : List DbRec → String → Option (DbRec × List DbRec)
  | [], _ => none
  | d :: rest, n =>
    if d.name = n then some (d, rest) else (popDb rest n).map (fun p => (p.1, d :: p.2))

/-- The `delete_database` handler: pop the record, drop it in MySQL, save; an
exception from the MySQL step flashes an error and skips the save. -/
def delete_database (db_name : String) (mysqlExc : Option String) (w : World) :
    World × List Ev × Resp :=
  match popDb w.databases db_name with
  | none =>
    (w, [.readJson DATABASES_FILE, .flash ("ไม่พบ Database " ++ db_name) "error"],
     .redirect "databases")
  | some (db_info, rest) =>
    let evSql := [Ev.extCall "pymysql" ("DROP DATABASE " ++ db_name ++ " / DROP USER " ++ db_info.user)]
    match mysqlExc with
    | some e =>
      (w, [Ev.readJson DATABASES_FILE] ++ evSql ++
        [Ev.flash ("เกิดข้อผิดพลาด: " ++ e) "error"], .redirect "databases")
    | none =>
      ({ w with databases := rest },
       [Ev.readJson DATABASES_FILE] ++ evSql ++
         [Ev.writeJson DATABASES_FILE, Ev.flash ("Database " ++ db_name ++ " ถูกลบแล้ว") "success"],
       .redirect "databases")

/-! ### Email management -/

/-- Result of one `run_mail_command`: `(returncode == 0, stdout + stderr)`,
with timeouts and exceptions mapped to `(False, message)` by the source. -/
structure MailOracle where
  ok : Bool
  msg : String
deriving DecidableEq, Repr

/-- The `create_email` handler: validate, reject duplicates, default the
password, run the docker-mailserver command, and save the record when the
command succeeded or its output does not mention the mailserver. -/
def create_email (form_user form_domain form_password now : String) (genPw : String)
    (orc : MailOracle) (w : World) : World × List Ev × Resp :=
  let email_user := pyLower (pyStrip form_user)
  let email_domain := pyLower (pyStrip form_domain)
  let email_password := pyStrip form_password
  if email_user = "" ∨ email_domain = "" then
    (w, [.flash "กรุณากรอกข้อมูลให้ครบ" "error"], .redirect "email")
  else if ¬ matchPlus isEmailChar email_user.data then
    (w, [.flash "ชื่อ email ไม่ถูกต้อง" "error"], .redirect "email")
  else
    let full_email := email_user ++ "@" ++ email_domain
    if w.emails.any (fun e => e.email = full_email) then
      (w, [.readJson EMAILS_FILE, .flash ("Email " ++ full_email ++ " มีอยู่แล้ว") "error"],
       .redirect "email")
    else
      let email_password := if email_password = "" then genPw else email_password
      let evMail := [Ev.extCall "docker" ("exec mailserver setup email add " ++ full_email)]
      if orc.ok || ¬ pyIn "mailserver" (pyLower orc.msg) then
        let new_email : EmailRec :=
          { email := full_email, user := email_user, domain := email_domain,
            password := email_password, quota := "1GB", created := now }
        ({ w with emails := w.emails ++ [new_email] },
         [Ev.readJson EMAILS_FILE] ++ evMail ++
           [Ev.writeJson EMAILS_FILE,
            Ev.flash ("สร้าง Email " ++ full_email ++ " สำเร็จ! Password: " ++ email_password)
              "success"],
         .redirect "email")
      else
        (w, [Ev.readJson EMAILS_FILE] ++ evMail ++
          [Ev.flash ("เกิดข้อผิดพลาด: " ++ orc.msg) "error"], .redirect "email")

/-- Find-and-pop of `delete_email`. -/
def popEmail : List EmailRec → String → Option (List EmailRec)
  | [], _ => none
  | e :: rest, a =>
    if e.email = a then some rest else (popEmail rest a).map (e :: ·)

/-- The `delete_email` handler: pop the record, run the docker-mailserver
delete (result ignored), save, flash success. -/
def delete_email (email_address : String) (w : World) : World × List Ev × Resp :=
  match popEmail w.emails email_address with
  | none =>
    (w, [.readJson EMAILS_FILE, .flash ("ไม่พบ Email " ++ email_address) "error"],
     .redirect "email")
  | some rest =>
    ({ w with emails := rest },
     [Ev.readJson EMAILS_FILE,
      Ev.extCall "docker" ("exec mailserver setup email del " ++ email_address),
      Ev.writeJson EMAILS_FILE, Ev.flash ("ลบ Email " ++ email_address ++ " แล้ว") "success"],
     .redirect "email")

/-! ### Authentication -/

/-- The module-level `DEFAULT_ADMIN` dict: its `password` value is the
`generate_password_hash` image of the default password, never the plaintext.
`gph` abstracts `werkzeug.security.generate_password_hash`. -/
def DEFAULT_ADMIN (gph : String → String) : UserRec :=
  { username := "admin", password := gph "admin123", role := "admin" }

/-- Dict lookup `users[username]` (first match; JSON object keys are unique). -/
def lookupUser : List (String × UserRec) → String → Option UserRec
  | [], _ => none
  | kv :: rest, u => if kv.1 = u then some kv.2 else lookupUser rest u

/-- The dict update `users[username]['password'] = newHash`. -/
def updatePw (users : List (String × UserRec)) (uname newHash : String) :
    List (String × UserRec) :=
  users.map fun kv => if kv.1 = uname then (kv.1, { kv.2 with password := newHash }) else kv

/-- The `login` POST check: `username in users and
check_password_hash(users[username]['password'], password)`.  `cph` abstracts
`werkzeug.security.check_password_hash`. -/
def login_check (cph : String → String → Bool) (users : List (String × UserRec))
    (username password : String) : Bool :=
  match lookupUser users username with
  | some u => cph u.password password
  | none => false

/-- The `change_password` handler: completeness, match and length checks, the
current-password check via `cph`, then store `gph new_password` and save. -/
def change_password (gph : String → String) (cph : String → String → Bool)
    (username current_password new_password confirm_password : String) (w : World) :
    World × List Ev × Resp :=
  if current_password = "" ∨ new_password = "" ∨ confirm_password = "" then
    (w, [.flash "กรุณากรอกข้อมูลให้ครบ" "error"], .redirect "settings")
  else if new_password ≠ confirm_password then
    (w, [.flash "รหัสผ่านใหม่ไม่ตรงกัน" "error"], .redirect "settings")
  else if new_password.length < 6 then
    (w, [.flash "รหัสผ่านใหม่ต้องมีอย่างน้อย 6 ตัวอักษร" "error"], .redirect "settings")
  else
    match lookupUser w.users username with
    | none => (w, [.readJson USERS_FILE, .flash "ผู้ใช้ไม่ถูกต้อง" "error"], .redirect "settings")
    | some urec =>
      if ¬ cph urec.password current_password then
        (w, [.readJson USERS_FILE, .flash "รหัสผ่านปัจจุบันไม่ถูกต้อง" "error"],
         .redirect "settings")
      else
        ({ w with users := updatePw w.users username (gph new_password) },
         [.readJson USERS_FILE, .writeJson USERS_FILE, .flash "เปลี่ยนรหัสผ่านสำเร็จ!" "success"],
         .redirect "settings")

/-! ### Listing pages -/

/-- The `domains` page: read the list and render it. -/
def domains_page (w : World) : List Ev × Resp × List DomainRec :=
  ([.readJson DOMAINS_FILE], .render "domains.html", w.domains)

/-- The `databases` page: read the list and render it. -/
def databases_page (w : World) : List Ev × Resp × List DbRec :=
  ([.readJson DATABASES_FILE], .render "databases.html", w.databases)

/-! ### Backup handlers -/

/-- The shared filename guard of the backup handlers:
`'..' in filename or '/' in filename`. -/
def backupNameBlocked (filename : String) : Bool :=
  pyIn ".." filename || pyIn "/" filename

/-- The `download_backup` handler: guarded filenames are rejected before any
file access; otherwise the one path touched is `os.path.join(BACKUPS_DIR,
filename)`. -/
def download_backup (filename : String) (w : World) : List Ev × Resp :=
  if backupNameBlocked filename then
    ([.flash "Invalid filename" "error"], .redirect "backups")
  else
    let filepath := pyJoin BACKUPS_DIR filename
    if filepath ∈ w.fs then ([.fsOp "exists" filepath, .fsOp "send_file" filepath], .sendFile filepath)
    else ([.fsOp "exists" filepath, .flash "Backup not found" "error"], .redirect "backups")

/-- The `delete_backup` handler: same guard; an existing file is removed. -/
def delete_backup (filename : String) (w : World) : World × List Ev × Resp :=
  if backupNameBlocked filename then
    (w, [.flash "Invalid filename" "error"], .redirect "backups")
  else
    let filepath := pyJoin BACKUPS_DIR filename
    if filepath ∈ w.fs then
      ({ w with fs := fsRemove w.fs filepath },
       [.fsOp "exists" filepath, .fsOp "remove" filepath, .flash "ลบ Backup สำเร็จ" "success"],
       .redirect "backups")
    else
      (w, [.fsOp "exists" filepath, .flash "Backup not found" "error"], .redirect "backups")

/-- Python `s.endswith(t)` (general suffix form). -/
def pyEndsWith (suffix s : String) : Bool := List.isSuffixOf suffix.data s.data

/-- Python `s.split('_')[0]`. -/
def firstUnderscoreField (s : String) : String :=
  ⟨s.data.takeWhile (· ≠ '_')⟩

/-- Oracle for one `restore_backup` POST: whether the tar branch raises, the
result of the docker/mysql subprocess in the `.sql` branch, and the member
names stored in the tar archive (data read from the backup file, so an input
of the run, not chosen by the handler). -/
structure RestoreOracle where
  tarExc : Option String
  sqlExc : Option String
  sqlOk : Bool
  sqlErr : String
  members : List String
deriving DecidableEq, Repr

/-- The `restore_backup` handler: guarded filenames are rejected before any
file access; for a `.tar.gz` the call `tar.extractall(WEBSITES_DIR)` writes
every member of the archive to `os.path.join(WEBSITES_DIR, member)` — paths
determined by the archive contents, not by the handler, and for a hostile
member name containing `..` the joined path escapes the webroot; a `.sql` is
piped into the docker mysql client; any other suffix silently redirects. -/
def restore_backup (filename : String) (orc : RestoreOracle) (w : World) :
    World × List Ev × Resp :=
  if backupNameBlocked filename then
    (w, [.flash "Invalid filename" "error"], .redirect "backups")
  else
    let filepath := pyJoin BACKUPS_DIR filename
    if ¬ filepath ∈ w.fs then
      (w, [.fsOp "exists" filepath, .flash "Backup not found" "error"], .redirect "backups")
    else if pyEndsWith ".tar.gz" filename then
      match orc.tarExc with
      | some m =>
        (w, [.fsOp "exists" filepath, .fsOp "open" filepath,
          .flash ("Restore ล้มเหลว: " ++ m) "error"], .redirect "backups")
      | none =>
        ({ w with fs := orc.members.foldl (fun fs m => fsAdd fs (pyJoin WEBSITES_DIR m)) w.fs },
         [.fsOp "exists" filepath, .fsOp "open" filepath]
           ++ orc.members.map (fun m => .fsOp "extract" (pyJoin WEBSITES_DIR m))
           ++ [.flash "Restore website สำเร็จ!" "success"],
         .redirect "backups")
    else if pyEndsWith ".sql" filename then
      match orc.sqlExc with
      | some m =>
        (w, [.fsOp "exists" filepath, .fsOp "open" filepath,
          .flash ("Restore ล้มเหลว: " ++ m) "error"], .redirect "backups")
      | none =>
        let db_name := firstUnderscoreField filename
        if orc.sqlOk then
          (w, [.fsOp "exists" filepath, .fsOp "open" filepath,
            .extCall "docker" ("exec -i main_db mysql " ++ db_name),
            .flash "Restore database สำเร็จ!" "success"], .redirect "backups")
        else
          (w, [.fsOp "exists" filepath, .fsOp "open" filepath,
            .extCall "docker" ("exec -i main_db mysql " ++ db_name),
            .flash ("Restore error: " ++ orc.sqlErr) "error"], .redirect "backups")
    else
      (w, [.fsOp "exists" filepath], .redirect "backups")

/-! ### The remaining SSL, email, backup and DNS manager handlers -/

/-- Outcome of the `certbot renew` subprocess in `renew_all_ssl`: success,
nonzero exit with its stderr, a missing binary, or another exception. -/
inductive RenewOracle where
  | ok
  | fail (stderr : String)
  | fileNotFound
  | exc (msg : String)
deriving DecidableEq, Repr

/-- The `renew_all_ssl` handler: one `certbot renew --quiet` call, no state
read or written, a flash per outcome, redirect to settings. -/
def renew_all_ssl (orc : RenewOracle) : List Ev × Resp :=
  match orc with
  | .ok =>
    ([.extCall "certbot" "renew --quiet", .flash "ต่ออายุ SSL certificates สำเร็จ!" "success"],
     .redirect "settings")
  | .fail stderr =>
    ([.extCall "certbot" "renew --quiet", .flash ("เกิดข้อผิดพลาด: " ++ stderr) "error"],
     .redirect "settings")
  | .fileNotFound =>
    ([.extCall "certbot" "renew --quiet", .flash "Certbot ยังไม่ได้ติดตั้ง" "error"],
     .redirect "settings")
  | .exc m =>
    ([.extCall "certbot" "renew --quiet", .flash ("เกิดข้อผิดพลาด: " ++ m) "error"],
     .redirect "settings")

/-- The `create_alias` handler: strip and lower both fields, require both,
run the docker-mailserver alias command; a failed command downgrades to an
info flash (source: `บันทึก Alias สำเร็จ (Mailserver อาจยังไม่ทำงาน)`). -/
def create_alias (form_from form_to : String) (orc : MailOracle) : List Ev × Resp :=
  let alias_from := pyLower (pyStrip form_from)
  let alias_to := pyLower (pyStrip form_to)
  if alias_from = "" ∨ alias_to = "" then
    ([.flash "กรุณากรอกข้อมูลให้ครบ" "error"], .redirect "email")
  else
    let call := Ev.extCall "docker"
      ("exec mailserver setup alias add " ++ alias_from ++ " " ++ alias_to)
    if orc.ok then
      ([call, .flash ("สร้าง Alias " ++ alias_from ++ " → " ++ alias_to ++ " สำเร็จ!") "success"],
       .redirect "email")
    else
      ([call, .flash "บันทึก Alias สำเร็จ (Mailserver อาจยังไม่ทำงาน)" "info"], .redirect "email")

/-- The `email` page: read both lists and render. -/
def email_page (w : World) : List Ev × Resp × List EmailRec × List DomainRec :=
  ([.readJson EMAILS_FILE, .readJson DOMAINS_FILE], .render "email.html", w.emails, w.domains)

/-- The `create_website_backup` handler: require a domain, check its folder,
create the backups directory, and tar the folder into
`<domain>_<timestamp>.tar.gz` (the timestamp is the formatted clock input). -/
def create_website_backup (form_domain now : String) (tarExc : Option String) (w : World) :
    World × List Ev × Resp :=
  let domain_name := pyStrip form_domain
  if domain_name = "" then
    (w, [.flash "กรุณาเลือกโดเมน" "error"], .redirect "backups")
  else
    let website_path := pyJoin WEBSITES_DIR domain_name
    if ¬ website_path ∈ w.fs then
      (w, [.fsOp "exists" website_path, .flash ("ไม่พบโฟลเดอร์ " ++ domain_name) "error"],
       .redirect "backups")
    else
      let backup_filename := domain_name ++ "_" ++ now ++ ".tar.gz"
      let backup_path := pyJoin BACKUPS_DIR backup_filename
      match tarExc with
      | some m =>
        ({ w with fs := fsAdd w.fs BACKUPS_DIR },
         [.fsOp "exists" website_path, .fsOp "makedirs" BACKUPS_DIR,
          .fsOp "tar_create" backup_path, .flash ("Backup ล้มเหลว: " ++ m) "error"],
         .redirect "backups")
      | none =>
        ({ w with fs := fsAdd (fsAdd w.fs BACKUPS_DIR) backup_path },
         [.fsOp "exists" website_path, .fsOp "makedirs" BACKUPS_DIR,
          .fsOp "tar_create" backup_path, .flash ("Backup สำเร็จ: " ++ backup_filename) "success"],
         .redirect "backups")

/-- Outcome of the mysqldump subprocess in `create_database_backup`. -/
inductive DumpOracle where
  | ok
  | fail (stderr : String)
  | exc (msg : String)
deriving DecidableEq, Repr

/-- The `create_database_backup` handler: require a database name, create the
backups directory, run mysqldump through docker, and write the dump to
`<db>_<timestamp>.sql` when it exited cleanly. -/
def create_database_backup (form_db now : String) (orc : DumpOracle) (w : World) :
    World × List Ev × Resp :=
  let db_name := pyStrip form_db
  if db_name = "" then
    (w, [.flash "กรุณาเลือก Database" "error"], .redirect "backups")
  else
    let backup_filename := db_name ++ "_" ++ now ++ ".sql"
    let backup_path := pyJoin BACKUPS_DIR backup_filename
    let call := Ev.extCall "docker" ("exec main_db mysqldump " ++ db_name)
    match orc with
    | .exc m =>
      ({ w with fs := fsAdd w.fs BACKUPS_DIR },
       [.fsOp "makedirs" BACKUPS_DIR, call, .flash ("Backup ล้มเหลว: " ++ m) "error"],
       .redirect "backups")
    | .fail stderr =>
      ({ w with fs := fsAdd w.fs BACKUPS_DIR },
       [.fsOp "makedirs" BACKUPS_DIR, call, .flash ("mysqldump error: " ++ stderr) "error"],
       .redirect "backups")
    | .ok =>
      ({ w with fs := fsAdd (fsAdd w.fs BACKUPS_DIR) backup_path },
       [.fsOp "makedirs" BACKUPS_DIR, call, .fsOp "write" backup_path,
        .flash ("Database backup สำเร็จ: " ++ backup_filename) "success"],
       .redirect "backups")

/-- Directory entries of `BACKUPS_DIR` as recorded in the file-system state:
the path remainders directly below the directory (no further `/`). -/
def listdirBackups (fs : List String) : List String :=
  fs.filterMap fun p =>
    if startsL (BACKUPS_DIR ++ "/").data p.data then
      let name : String := ⟨p.data.drop (BACKUPS_DIR ++ "/").data.length⟩
      if name.data.any (· = '/') then none else some name
    else none

/-- Python string `<`: code-point lexicographic order. -/
def pyStrLtL : List Char → List Char → Bool
  | [], [] => false
  | [], _ :: _ => true
  | _ :: _, [] => false
  | x :: xs, y :: ys => if x < y then true else if y < x then false else pyStrLtL xs ys

/-- Insertion into a descending-sorted list. -/
def insertDesc (x : String) : List String → List String
  | [] => [x]
  | y :: ys => if pyStrLtL y.data x.data then x :: y :: ys else y :: insertDesc x ys

/-- `sorted(names, reverse=True)` (directory names are pairwise distinct, so
stability does not matter). -/
def pySortedRev (l : List String) : List String := l.foldr insertDesc []

/-- One row of the backups page, as `get_backup_list` builds it. -/
structure BackupEntry where
  filename : String
  size : String
  created : String
  btype : String
deriving DecidableEq, Repr

/-- `get_backup_list`: create the backups directory if it is missing and
return nothing; otherwise list it sorted descending, keep the `.tar.gz` and
`.sql` entries, and stat each one.  `fmtSize` abstracts
`format_size(os.stat(..).st_size)` over the stat result `statSize`, and
`mtimeStr` abstracts `datetime.fromtimestamp(os.stat(..).st_mtime).strftime`,
as abstract pure helpers of the path. -/
def get_backup_list (statSize : String → Nat) (fmtSize : Nat → String)
    (mtimeStr : String → String) (w : World) : World × List Ev × List BackupEntry :=
  if ¬ BACKUPS_DIR ∈ w.fs then
    ({ w with fs := fsAdd w.fs BACKUPS_DIR },
     [.fsOp "exists" BACKUPS_DIR, .fsOp "makedirs" BACKUPS_DIR], [])
  else
    let names := pySortedRev (listdirBackups w.fs)
    let entries := (names.filter fun n => pyEndsWith ".tar.gz" n || pyEndsWith ".sql" n).map
      fun n =>
        let fp := pyJoin BACKUPS_DIR n
        { filename := n, size := fmtSize (statSize fp), created := mtimeStr fp,
          btype := if pyEndsWith ".tar.gz" n then "website" else "database" : BackupEntry }
    (w, [.fsOp "exists" BACKUPS_DIR, .fsOp "listdir" BACKUPS_DIR], entries)

/-- The `backups` page: the backup list plus both JSON lists, rendered. -/
def backups_page (statSize : String → Nat) (fmtSize : Nat → String)
    (mtimeStr : String → String) (w : World) :
    World × List Ev × Resp × (List BackupEntry × List DomainRec × List DbRec) :=
  let gbl := get_backup_list statSize fmtSize mtimeStr w
  (gbl.1, gbl.2.1 ++ [.readJson DOMAINS_FILE, .readJson DATABASES_FILE],
   .render "backups.html", (gbl.2.2, w.domains, w.databases))

/-! ### DNS management -/

/-- The Cloudflare config file. -/
def DNS_CONFIG_FILE : String := "/data/dns_config.json"

/-- The parsed contents of `dns_config.json` (`load_dns_config` defaults all
three fields to the empty string when the file is missing). -/
structure DnsConfig where
  api_token : String
  zone_id : String
  domain : String
deriving DecidableEq, Repr

/-- One parsed Cloudflare API response, as far as the handlers inspect it:
the `success` flag, the first error message (with the source's
`'Unknown error'` default already applied), and the `result` list. -/
structure CfResp where
  success : Bool
  errMsg : String
  result : List Json
deriving Repr

/-- The `dns` page: read the config; when both token and zone are set, list
the records through the API (an unsuccessful response renders an empty
list). -/
def dns_page (config : DnsConfig) (listResp : CfResp) : List Ev × Resp × List Json :=
  if config.api_token ≠ "" ∧ config.zone_id ≠ "" then
    ([.readJson DNS_CONFIG_FILE,
      .extCall "cloudflare" ("GET zones/" ++ config.zone_id ++ "/dns_records")],
     .render "dns.html", if listResp.success then listResp.result else [])
  else ([.readJson DNS_CONFIG_FILE], .render "dns.html", [])

/-- The `save_dns_settings` handler: require token and zone, write the config
file, then test the connection with one GET.  The written config contents are
returned alongside the trace and response. -/
def save_dns_settings (form_token form_zone form_domain : String) (test : CfResp) :
    Option DnsConfig × List Ev × Resp :=
  let api_token := pyStrip form_token
  let zone_id := pyStrip form_zone
  let domain := pyStrip form_domain
  if api_token = "" ∨ zone_id = "" then
    (none, [.flash "กรุณากรอก API Token และ Zone ID" "error"], .redirect "dns")
  else
    let config : DnsConfig := ⟨api_token, zone_id, domain⟩
    let test_call := Ev.extCall "cloudflare"
      ("GET zones/" ++ zone_id ++ "/dns_records?per_page=1")
    if test.success then
      (some config, [.writeJson DNS_CONFIG_FILE, test_call,
        .flash "เชื่อมต่อ Cloudflare สำเร็จ!" "success"], .redirect "dns")
    else
      (some config, [.writeJson DNS_CONFIG_FILE, test_call,
        .flash ("เชื่อมต่อไม่สำเร็จ: " ++ test.errMsg) "error"], .redirect "dns")

/-- The `add_dns_record` handler: read the config, require name and content,
POST the record data (`proxied` is forced off outside A/AAAA/CNAME, `ttl` is
the parsed integer form field). -/
def add_dns_record (config : DnsConfig) (record_type form_name form_content : String)
    (proxied : Bool) (ttl : Int) (res : CfResp) : List Ev × Resp :=
  let name := pyStrip form_name
  let content := pyStrip form_content
  if name = "" ∨ content = "" then
    ([.readJson DNS_CONFIG_FILE, .flash "กรุณากรอกข้อมูลให้ครบ" "error"], .redirect "dns")
  else
    let proxied_eff :=
      (record_type = "A" ∨ record_type = "AAAA" ∨ record_type = "CNAME") ∧ proxied
    let call := Ev.extCall "cloudflare"
      ("POST zones/" ++ config.zone_id ++ "/dns_records " ++ record_type ++ " " ++ name
        ++ " " ++ content ++ " ttl=" ++ (⟨intChars ttl⟩ : String)
        ++ (if proxied_eff then " proxied" else ""))
    if res.success then
      ([.readJson DNS_CONFIG_FILE, call,
        .flash ("เพิ่ม " ++ record_type ++ " record สำเร็จ!") "success"], .redirect "dns")
    else
      ([.readJson DNS_CONFIG_FILE, call,
        .flash ("เพิ่มไม่สำเร็จ: " ++ res.errMsg) "error"], .redirect "dns")

/-- The `delete_dns_record` handler: read the config, DELETE by record id. -/
def delete_dns_record (config : DnsConfig) (record_id : String) (res : CfResp) :
    List Ev × Resp :=
  let call := Ev.extCall "cloudflare"
    ("DELETE zones/" ++ config.zone_id ++ "/dns_records/" ++ record_id)
  if res.success then
    ([.readJson DNS_CONFIG_FILE, call, .flash "ลบ DNS record สำเร็จ!" "success"], .redirect "dns")
  else
    ([.readJson DNS_CONFIG_FILE, call, .flash ("ลบไม่สำเร็จ: " ++ res.errMsg) "error"],
     .redirect "dns")

/-- The five fixed records of `quick_dns_setup` (type, name, content, and the
proxied/priority extras the loop sets). -/
def quickRecords (server_ip domain : String) : List String :=
  ["A @ " ++ server_ip ++ " ttl=1 proxied",
   "A www " ++ server_ip ++ " ttl=1 proxied",
   "A mail " ++ server_ip ++ " ttl=1",
   "MX @ mail." ++ domain ++ " ttl=1 priority=10",
   "TXT @ v=spf1 a mx ip4:" ++ server_ip ++ " ~all ttl=1"]

/-- The `quick_dns_setup` handler: require the server IP and the configured
domain, POST the five fixed records in order, and flash the success count
(the oracle maps the call index to its response). -/
def quick_dns_setup (config : DnsConfig) (form_ip : String) (o : Nat → CfResp) :
    List Ev × Resp :=
  let server_ip := pyStrip form_ip
  let domain := pyStrip config.domain
  if server_ip = "" ∨ domain = "" then
    ([.readJson DNS_CONFIG_FILE, .flash "กรุณากรอก Server IP และ Domain" "error"], .redirect "dns")
  else
    let recs := quickRecords server_ip domain
    let calls := recs.map fun r =>
      Ev.extCall "cloudflare" ("POST zones/" ++ config.zone_id ++ "/dns_records " ++ r)
    let success_count := ((List.range recs.length).filter fun i => (o i).success).length
    ([.readJson DNS_CONFIG_FILE] ++ calls ++
      [.flash ("Quick Setup สำเร็จ " ++ (⟨natDigits success_count⟩ : String) ++ "/"
        ++ (⟨natDigits recs.length⟩ : String) ++ " records") "success"],
     .redirect "dns")

/-! ### Trace predicates -/

/-- The events that are steps of the read / shell-out / write pipeline (flash
messages are response decoration, not steps). -/
def isStepEvent : Ev → Bool
  | .flash _ _ => false
  | _ => true

/-- Whether an event writes some JSON file. -/
def isJsonWrite : Ev → Bool
  | .writeJson _ => true
  | _ => false

/-- Whether an event is an external call (subprocess or driver/HTTP). -/
def isExtCall : Ev → Bool
  | .extCall _ _ => true
  | _ => false

/-- Scan the step events: every JSON write must come after some external call
and be the final step.  `seenExt` records whether an external call has
occurred. -/
def writeLastAfterExtAux (seenExt : Bool) : List Ev → Bool
  | [] => true
  | e :: rest =>
    if isJsonWrite e then seenExt && rest = []
    else writeLastAfterExtAux (seenExt || isExtCall e) rest

/-- In a trace, every JSON write is the last step event and is preceded by an
external call. -/
def writeLastAfterExt (tr : List Ev) : Bool :=
  writeLastAfterExtAux false (tr.filter isStepEvent)

/-- Index of the first event satisfying `p`. -/
def firstIdx (p : Ev → Bool) : List Ev → Option Nat
  | [] => none
  | e :: rest => if p e then some 0 else (firstIdx p rest).map (· + 1)

/-- Whether an event is the write of `domains.json`. -/
def isDomainsWrite (e : Ev) : Bool := e = .writeJson DOMAINS_FILE

/-- Whether an event is the `nginx -s reload` subprocess call. -/
def isNginxReload (e : Ev) : Bool := e = .extCall "nginx" "-s reload"

/-- Whether an event is any `nginx` subprocess call. -/
def isNginxCall : Ev → Bool
  | .extCall p _ => p = "nginx"
  | _ => false

/-- The claim of C3: the `domains.json` write occurs, the nginx reload call
occurs, and the write comes first. -/
def domainsWriteBeforeNginxReload (tr : List Ev) : Bool :=
  match firstIdx isDomainsWrite tr, firstIdx isNginxReload tr with
  | some i, some j => decide (i < j)
  | _, _ => false

/-- The corrected ordering: some nginx subprocess call occurs, the
`domains.json` write occurs, and the nginx call comes first. -/
def nginxBeforeDomainsWrite (tr : List Ev) : Bool :=
  match firstIdx isNginxCall tr, firstIdx isDomainsWrite tr with
  | some j, some i => decide (j < i)
  | _, _ => false

/-- Number of certbot invocations in a trace. -/
def countCertbot (tr : List Ev) : Nat :=
  (tr.filter fun e => match e with | .extCall p _ => p = "certbot" | _ => false).length

/-- Whether a trace flashes a message of category `error`. -/
def hasErrorFlash (tr : List Ev) : Bool :=
  tr.any fun e => match e with | .flash _ c => c = "error" | _ => false

/-- The file-system paths a trace touches (its `fsOp` events). -/
def fsPaths (tr : List Ev) : List String :=
  tr.filterMap fun e => match e with | .fsOp _ p => some p | _ => none

/-- Whether a trace contains any file access or external call at all. -/
def touchesNothing (tr : List Ev) : Bool :=
  tr.all fun e => match e with | .fsOp _ _ => false | .extCall _ _ => false | _ => true

/-! ### Shared concrete inputs for closed instances -/

/-- An empty server state: no files, empty JSON lists. -/
def emptyWorld : World := ⟨[], [], [], [], []⟩

/-- A state holding one active domain without SSL. -/
def oneDomainWorld : World :=
  ⟨[], [⟨"example.com", "/var/www/example.com/public_html", false, "2025-01-01 00:00", "active"⟩],
   [], [], []⟩

/-! ### C1 -/

/-- C1: the claim that `get_safe_path` returns only `None` or paths inside
`WEBSITES_DIR` fails: on the input `"../wwwother"` the function returns
`'/var/wwwother'`, a sibling directory whose name merely has `'/var/www'` as a
string prefix, so the file-browser operations would operate outside the
website root.  This contradicts the function's own docstring and security
comment. -/
theorem C1_get_safe_path_escapes_root :
    get_safe_path "../wwwother" = some "/var/wwwother" ∧
      ¬ insideWebsitesDir "/var/wwwother" := by
  decide

/-! ### C3 -/

/-- C3 (counterexample): a successful `add_domain` request in which the
`domains.json` write does *not* happen before the nginx reload subprocess
call: on a fresh state with a valid new name the run succeeds (it redirects,
writes the list, and reloads nginx), yet the write comes after the reload. -/
theorem C3_write_is_not_before_reload :
    (add_domain "example.com" "2025-01-01 00:00" ⟨none, .ok⟩ emptyWorld).2.2 =
        .redirect "domains" ∧
      (add_domain "example.com" "2025-01-01 00:00" ⟨none, .ok⟩ emptyWorld).1.domains ≠
        emptyWorld.domains ∧
      domainsWriteBeforeNginxReload
        (add_domain "example.com" "2025-01-01 00:00" ⟨none, .ok⟩ emptyWorld).2.1 = false := by
  decide

/-- C3 (amended): every successful `add_domain` request performs its steps in
the order validate, create files and shell out to nginx, write `domains.json`,
flash - in particular the nginx subprocess invocation comes *before* the write
of `domains.json`, not after it. -/
theorem C3_nginx_before_domains_write (form now : String) (ng : NginxOracle) (w : World)
    (h1 : pyLower (pyStrip form) ≠ "")
    (h2 : is_valid_domain (pyLower (pyStrip form)) = true)
    (h3 : w.domains.any (fun d => d.name = pyLower (pyStrip form)) = false) :
    nginxBeforeDomainsWrite (add_domain form now ⟨none, ng⟩ w).2.1 = true := by
  unfold add_domain create_domain_files
  rw [if_neg h1, if_neg (by simp [h2]), if_neg (by simp [h3])]
  dsimp only
  cases ng <;> (repeat' split) <;>
    simp [reload_nginx, nginxBeforeDomainsWrite, firstIdx, isNginxCall, isDomainsWrite]

/-- Closed instance of `C3_nginx_before_domains_write` at a concrete
successful request. -/
theorem C3_nginx_before_domains_write_witness :
    nginxBeforeDomainsWrite
      (add_domain "example.com" "2025-01-01 00:00" ⟨none, .ok⟩ emptyWorld).2.1 = true :=
  C3_nginx_before_domains_write "example.com" "2025-01-01 00:00" .ok emptyWorld
    (by decide) (by decide) (by decide)

/-! ### C4 - helper lemmas, one per handler -/

/-- In every `add_domain` run, a `domains.json` write is the last step event
and follows an external call. -/
theorem wlae_add_domain (form now : String) (orc : AddOracle) (w : World) :
    writeLastAfterExt (add_domain form now orc w).2.1 = true := by
  obtain ⟨fsExc, ng⟩ := orc
  unfold add_domain create_domain_files
  dsimp only
  cases fsExc <;> cases ng <;> (repeat' split) <;>
    simp [reload_nginx, writeLastAfterExt, writeLastAfterExtAux, isStepEvent, isJsonWrite,
      isExtCall]

/-- In every `delete_domain` run, a `domains.json` write is the last step
event and follows an external call. -/
theorem wlae_delete_domain (name : String) (orc : DelDomainOracle) (w : World) :
    writeLastAfterExt (delete_domain name orc w).2.1 = true := by
  obtain ⟨exc, ng⟩ := orc
  unfold delete_domain delete_domain_files
  dsimp only
  cases exc <;> cases ng <;> (repeat' split) <;>
    simp [reload_nginx, writeLastAfterExt, writeLastAfterExtAux, isStepEvent, isJsonWrite,
      isExtCall]

/-- In every `create_database` run, a `databases.json` write is the last step
event and follows the MySQL call. -/
theorem wlae_create_database (a b c now : String) (orc : CreateDbOracle) (w : World) :
    writeLastAfterExt (create_database a b c now orc w).2.1 = true := by
  obtain ⟨exc, gp⟩ := orc
  unfold create_database
  dsimp only
  cases exc <;> (repeat' split) <;>
    simp [writeLastAfterExt, writeLastAfterExtAux, isStepEvent, isJsonWrite, isExtCall]

/-- In every `delete_database` run, a `databases.json` write is the last step
event and follows the MySQL call. -/
theorem wlae_delete_database (name : String) (exc : Option String) (w : World) :
    writeLastAfterExt (delete_database name exc w).2.1 = true := by
  unfold delete_database
  dsimp only
  cases exc <;> (repeat' split) <;>
    simp [writeLastAfterExt, writeLastAfterExtAux, isStepEvent, isJsonWrite, isExtCall]

/-- In every `create_email` run, an `emails.json` write is the last step event
and follows the docker-mailserver call. -/
theorem wlae_create_email (a b c now gp : String) (orc : MailOracle) (w : World) :
    writeLastAfterExt (create_email a b c now gp orc w).2.1 = true := by
  unfold create_email
  dsimp only
  repeat' split
  all_goals
    simp [writeLastAfterExt, writeLastAfterExtAux, isStepEvent, isJsonWrite, isExtCall]

/-- In every `delete_email` run, an `emails.json` write is the last step event
and follows the docker-mailserver call. -/
theorem wlae_delete_email (a : String) (w : World) :
    writeLastAfterExt (delete_email a w).2.1 = true := by
  unfold delete_email
  repeat' split
  all_goals
    simp [writeLastAfterExt, writeLastAfterExtAux, isStepEvent, isJsonWrite, isExtCall]

/-- C4: every create or delete handler of the domain, database and email
managers orders its steps read JSON, validate, shell out, then write JSON: in
every run of `add_domain`, `delete_domain`, `create_database`,
`delete_database`, `create_email` and `delete_email`, any write of the
handler's JSON file is the last step event of the request and occurs only
after the external subprocess or driver call has been made. -/
theorem C4_json_write_is_last_and_after_external_call :
    (∀ form now orc w, writeLastAfterExt (add_domain form now orc w).2.1 = true) ∧
    (∀ name orc w, writeLastAfterExt (delete_domain name orc w).2.1 = true) ∧
    (∀ a b c now orc w, writeLastAfterExt (create_database a b c now orc w).2.1 = true) ∧
    (∀ name exc w, writeLastAfterExt (delete_database name exc w).2.1 = true) ∧
    (∀ a b c now gp orc w, writeLastAfterExt (create_email a b c now gp orc w).2.1 = true) ∧
    (∀ a w, writeLastAfterExt (delete_email a w).2.1 = true) :=
  ⟨wlae_add_domain, wlae_delete_domain, wlae_create_database, wlae_delete_database,
   wlae_create_email, wlae_delete_email⟩

/-! ### C5 -/

/-- When `create_mysql_database` raises, `create_database` leaves the stored
list untouched and flashes an error. -/
theorem create_database_exc_unchanged (a b c now gp e : String) (w : World) :
    (create_database a b c now ⟨some e, gp⟩ w).1.databases = w.databases ∧
      hasErrorFlash (create_database a b c now ⟨some e, gp⟩ w).2.1 = true := by
  unfold create_database
  dsimp only
  repeat' split
  all_goals simp_all [hasErrorFlash]

/-- When `delete_mysql_database` raises, `delete_database` leaves the stored
list untouched and flashes an error. -/
theorem delete_database_exc_unchanged (name e : String) (w : World) :
    (delete_database name (some e) w).1.databases = w.databases ∧
      hasErrorFlash (delete_database name (some e) w).2.1 = true := by
  unfold delete_database
  dsimp only
  repeat' split
  all_goals simp_all [hasErrorFlash]

/-- C5: a request in which the MySQL operation raises an exception is caught
by the single try/except and leaves the on-disk `databases.json` unchanged
while an error message is flashed - for `create_database` (the record is
neither appended nor saved) and for `delete_database` (the removal is not
saved). -/
theorem C5_mysql_exception_leaves_databases_unchanged :
    (∀ a b c now gp e w,
      (create_database a b c now ⟨some e, gp⟩ w).1.databases = w.databases ∧
        hasErrorFlash (create_database a b c now ⟨some e, gp⟩ w).2.1 = true) ∧
    (∀ name e w,
      (delete_database name (some e) w).1.databases = w.databases ∧
        hasErrorFlash (delete_database name (some e) w).2.1 = true) :=
  ⟨create_database_exc_unchanged, delete_database_exc_unchanged⟩

/-! ### C6 -/

/-- C6: `toggle_ssl` has no retry logic: in every run the certbot subprocess
is invoked at most once; and when the invocation is not successful (a failing
return code, a timeout, a missing binary, or any other exception), the stored
state is unchanged, and whenever certbot was actually invoked the handler
flashes an error and redirects instead of re-attempting. -/
theorem C6_certbot_invoked_at_most_once (name : String) (orc : CertbotOracle) (w : World) :
    countCertbot (toggle_ssl name orc w).2.1 ≤ 1 ∧
      (orc ≠ .success →
        (toggle_ssl name orc w).1 = w ∧
          (countCertbot (toggle_ssl name orc w).2.1 = 1 →
            hasErrorFlash (toggle_ssl name orc w).2.1 = true ∧
              (toggle_ssl name orc w).2.2 = .redirect "domains")) := by
  unfold toggle_ssl enable_ssl_for_domain
  dsimp only
  cases orc <;> (repeat' split) <;>
    simp_all [countCertbot, hasErrorFlash]

/-- Closed instance of `C6_certbot_invoked_at_most_once`: a timed-out certbot
run on an existing domain flashes an error, changes nothing, and was invoked
exactly once. -/
theorem C6_certbot_witness :
    countCertbot (toggle_ssl "example.com" .timeout oneDomainWorld).2.1 ≤ 1 ∧
      (toggle_ssl "example.com" .timeout oneDomainWorld).1 = oneDomainWorld ∧
      hasErrorFlash (toggle_ssl "example.com" .timeout oneDomainWorld).2.1 = true ∧
      (toggle_ssl "example.com" .timeout oneDomainWorld).2.2 = .redirect "domains" := by
  obtain ⟨h1, h2⟩ := C6_certbot_invoked_at_most_once "example.com" .timeout oneDomainWorld
  have h3 := h2 (by decide)
  exact ⟨h1, h3.1, (h3.2 (by decide)).1, (h3.2 (by decide)).2⟩

/-! ### C7 -/

/-- Helper: in every `change_password` run the stored users are either
untouched or updated exactly by writing `gph new_password` into the user's
password field. -/
theorem change_password_only_writes_hash (gph : String → String) (cph : String → String → Bool)
    (u cur new conf : String) (w : World) :
    (change_password gph cph u cur new conf w).1.users = w.users ∨
      (change_password gph cph u cur new conf w).1.users = updatePw w.users u (gph new) := by
  unfold change_password
  repeat' split
  all_goals simp

/-- C7: authentication stores only hashed passwords: the default admin record
carries `generate_password_hash('admin123')`; every users-file state
`change_password` can produce either equals the old one or has exactly the
user's password field replaced by `generate_password_hash(new_password)`
(never the plaintext); and the `login` check compares the submitted password
with the stored value only through `check_password_hash`. -/
theorem C7_passwords_stored_only_hashed :
    (∀ gph : String → String, (DEFAULT_ADMIN gph).password = gph "admin123") ∧
    (∀ (gph : String → String) (cph : String → String → Bool) (u cur new conf : String)
        (w : World),
      (change_password gph cph u cur new conf w).1.users = w.users ∨
        (change_password gph cph u cur new conf w).1.users = updatePw w.users u (gph new)) ∧
    (∀ (cph : String → String → Bool) (users : List (String × UserRec)) (uname pw : String),
      login_check cph users uname pw = true ↔
        ∃ rec, lookupUser users uname = some rec ∧ cph rec.password pw = true) := by
  refine ⟨fun _ => rfl, change_password_only_writes_hash, fun cph users uname pw => ?_⟩
  unfold login_check
  cases h : lookupUser users uname <;> simp [h]

/-! ### C8 -/

/-- C8: the manager handlers — domains (`add_domain`, `delete_domain`, the
list page), SSL (`toggle_ssl`, `renew_all_ssl`), databases (`create_database`,
`delete_database`, the list page), email (`create_email`, `delete_email`,
`create_alias`, the list page), backups (`create_website_backup`,
`create_database_backup`, `download_backup`, `delete_backup`,
`restore_backup`, the list page), DNS (`save_dns_settings`, `add_dns_record`,
`delete_dns_record`, `quick_dns_setup`, the page) and settings
(`change_password`) — are stateless between requests: each handler's output
(new file contents, event trace, response) is a function only of the
request's form data, the current JSON file contents and file-system state,
the clock value, and the external-call outcomes; two runs with identical such
inputs produce identical outputs.  No handler reads module-level mutable
state, so each is embedded as a pure function of exactly these inputs. -/
theorem C8_handlers_deterministic_and_stateless :
    (∀ (f₁ f₂ n₁ n₂ : String) (o₁ o₂ : AddOracle) (w₁ w₂ : World), f₁ = f₂ → n₁ = n₂ →
      o₁ = o₂ → w₁ = w₂ → add_domain f₁ n₁ o₁ w₁ = add_domain f₂ n₂ o₂ w₂) ∧
    (∀ (d₁ d₂ : String) (o₁ o₂ : DelDomainOracle) (w₁ w₂ : World), d₁ = d₂ → o₁ = o₂ →
      w₁ = w₂ → delete_domain d₁ o₁ w₁ = delete_domain d₂ o₂ w₂) ∧
    (∀ (d₁ d₂ : String) (o₁ o₂ : CertbotOracle) (w₁ w₂ : World), d₁ = d₂ → o₁ = o₂ →
      w₁ = w₂ → toggle_ssl d₁ o₁ w₁ = toggle_ssl d₂ o₂ w₂) ∧
    (∀ (a₁ a₂ b₁ b₂ c₁ c₂ n₁ n₂ : String) (o₁ o₂ : CreateDbOracle) (w₁ w₂ : World),
      a₁ = a₂ → b₁ = b₂ → c₁ = c₂ → n₁ = n₂ → o₁ = o₂ → w₁ = w₂ →
        create_database a₁ b₁ c₁ n₁ o₁ w₁ = create_database a₂ b₂ c₂ n₂ o₂ w₂) ∧
    (∀ (d₁ d₂ : String) (e₁ e₂ : Option String) (w₁ w₂ : World), d₁ = d₂ → e₁ = e₂ →
      w₁ = w₂ → delete_database d₁ e₁ w₁ = delete_database d₂ e₂ w₂) ∧
    (∀ (a₁ a₂ b₁ b₂ c₁ c₂ n₁ n₂ g₁ g₂ : String) (o₁ o₂ : MailOracle) (w₁ w₂ : World),
      a₁ = a₂ → b₁ = b₂ → c₁ = c₂ → n₁ = n₂ → g₁ = g₂ → o₁ = o₂ → w₁ = w₂ →
        create_email a₁ b₁ c₁ n₁ g₁ o₁ w₁ = create_email a₂ b₂ c₂ n₂ g₂ o₂ w₂) ∧
    (∀ (a₁ a₂ : String) (w₁ w₂ : World), a₁ = a₂ → w₁ = w₂ →
      delete_email a₁ w₁ = delete_email a₂ w₂) ∧
    (∀ w₁ w₂ : World, w₁ = w₂ → domains_page w₁ = domains_page w₂) ∧
    (∀ w₁ w₂ : World, w₁ = w₂ → databases_page w₁ = databases_page w₂) ∧
    (∀ (g₁ g₂ : String → String) (c₁ c₂ : String → String → Bool)
      (u₁ u₂ p₁ p₂ q₁ q₂ r₁ r₂ : String) (w₁ w₂ : World),
      g₁ = g₂ → c₁ = c₂ → u₁ = u₂ → p₁ = p₂ → q₁ = q₂ → r₁ = r₂ → w₁ = w₂ →
        change_password g₁ c₁ u₁ p₁ q₁ r₁ w₁ = change_password g₂ c₂ u₂ p₂ q₂ r₂ w₂) ∧
    (∀ o₁ o₂ : RenewOracle, o₁ = o₂ → renew_all_ssl o₁ = renew_all_ssl o₂) ∧
    (∀ (a₁ a₂ b₁ b₂ : String) (o₁ o₂ : MailOracle), a₁ = a₂ → b₁ = b₂ → o₁ = o₂ →
      create_alias a₁ b₁ o₁ = create_alias a₂ b₂ o₂) ∧
    (∀ w₁ w₂ : World, w₁ = w₂ → email_page w₁ = email_page w₂) ∧
    (∀ (d₁ d₂ n₁ n₂ : String) (e₁ e₂ : Option String) (w₁ w₂ : World),
      d₁ = d₂ → n₁ = n₂ → e₁ = e₂ → w₁ = w₂ →
        create_website_backup d₁ n₁ e₁ w₁ = create_website_backup d₂ n₂ e₂ w₂) ∧
    (∀ (d₁ d₂ n₁ n₂ : String) (o₁ o₂ : DumpOracle) (w₁ w₂ : World),
      d₁ = d₂ → n₁ = n₂ → o₁ = o₂ → w₁ = w₂ →
        create_database_backup d₁ n₁ o₁ w₁ = create_database_backup d₂ n₂ o₂ w₂) ∧
    (∀ (f₁ f₂ : String) (w₁ w₂ : World), f₁ = f₂ → w₁ = w₂ →
      download_backup f₁ w₁ = download_backup f₂ w₂) ∧
    (∀ (f₁ f₂ : String) (w₁ w₂ : World), f₁ = f₂ → w₁ = w₂ →
      delete_backup f₁ w₁ = delete_backup f₂ w₂) ∧
    (∀ (f₁ f₂ : String) (o₁ o₂ : RestoreOracle) (w₁ w₂ : World), f₁ = f₂ → o₁ = o₂ →
      w₁ = w₂ → restore_backup f₁ o₁ w₁ = restore_backup f₂ o₂ w₂) ∧
    (∀ (s₁ s₂ : String → Nat) (f₁ f₂ : Nat → String) (m₁ m₂ : String → String)
      (w₁ w₂ : World), s₁ = s₂ → f₁ = f₂ → m₁ = m₂ → w₁ = w₂ →
        backups_page s₁ f₁ m₁ w₁ = backups_page s₂ f₂ m₂ w₂) ∧
    (∀ (c₁ c₂ : DnsConfig) (r₁ r₂ : CfResp), c₁ = c₂ → r₁ = r₂ →
      dns_page c₁ r₁ = dns_page c₂ r₂) ∧
    (∀ (a₁ a₂ b₁ b₂ d₁ d₂ : String) (r₁ r₂ : CfResp), a₁ = a₂ → b₁ = b₂ → d₁ = d₂ →
      r₁ = r₂ → save_dns_settings a₁ b₁ d₁ r₁ = save_dns_settings a₂ b₂ d₂ r₂) ∧
    (∀ (c₁ c₂ : DnsConfig) (t₁ t₂ n₁ n₂ v₁ v₂ : String) (p₁ p₂ : Bool) (l₁ l₂ : Int)
      (r₁ r₂ : CfResp), c₁ = c₂ → t₁ = t₂ → n₁ = n₂ → v₁ = v₂ → p₁ = p₂ → l₁ = l₂ →
        r₁ = r₂ → add_dns_record c₁ t₁ n₁ v₁ p₁ l₁ r₁ = add_dns_record c₂ t₂ n₂ v₂ p₂ l₂ r₂) ∧
    (∀ (c₁ c₂ : DnsConfig) (i₁ i₂ : String) (r₁ r₂ : CfResp), c₁ = c₂ → i₁ = i₂ →
      r₁ = r₂ → delete_dns_record c₁ i₁ r₁ = delete_dns_record c₂ i₂ r₂) ∧
    (∀ (c₁ c₂ : DnsConfig) (i₁ i₂ : String) (o₁ o₂ : Nat → CfResp), c₁ = c₂ → i₁ = i₂ →
      o₁ = o₂ → quick_dns_setup c₁ i₁ o₁ = quick_dns_setup c₂ i₂ o₂) :=
  ⟨by intros; subst_vars; rfl, by intros; subst_vars; rfl, by intros; subst_vars; rfl,
   by intros; subst_vars; rfl, by intros; subst_vars; rfl, by intros; subst_vars; rfl,
   by intros; subst_vars; rfl, by intros; subst_vars; rfl, by intros; subst_vars; rfl,
   by intros; subst_vars; rfl, by intros; subst_vars; rfl, by intros; subst_vars; rfl,
   by intros; subst_vars; rfl, by intros; subst_vars; rfl, by intros; subst_vars; rfl,
   by intros; subst_vars; rfl, by intros; subst_vars; rfl, by intros; subst_vars; rfl,
   by intros; subst_vars; rfl, by intros; subst_vars; rfl, by intros; subst_vars; rfl,
   by intros; subst_vars; rfl, by intros; subst_vars; rfl, by intros; subst_vars; rfl⟩

/-- Closed instance of `C8_handlers_deterministic_and_stateless` at one
concrete request: two identical `add_domain` runs coincide. -/
theorem C8_witness :
    add_domain "example.com" "2025-01-01 00:00" ⟨none, .ok⟩ emptyWorld =
      add_domain "example.com" "2025-01-01 00:00" ⟨none, .ok⟩ emptyWorld :=
  C8_handlers_deterministic_and_stateless.1 "example.com" "example.com"
    "2025-01-01 00:00" "2025-01-01 00:00" ⟨none, .ok⟩ ⟨none, .ok⟩ emptyWorld emptyWorld
    rfl rfl rfl rfl

/-! ### C2 - helper lemmas on valid domain names and `pyJoin` -/

/-- The last element of an appended list with nonempty right part is the right
part's last element, for any defaults. -/
theorem getLastD_append_ne (l1 : List Char) :
    ∀ (l2 : List Char), l2 ≠ [] → ∀ x y, (l1 ++ l2).getLastD x = l2.getLastD y := by
  induction l1 with
  | nil =>
    intro l2 h x y
    cases l2 with
    | nil => exact absurd rfl h
    | cons b t => rw [List.nil_append, List.getLastD_cons, List.getLastD_cons]
  | cons a l1 ih =>
    intro l2 h x y
    rw [List.cons_append, List.getLastD_cons]
    exact ih l2 h a y


/-- A matched `(\.[a-zA-Z]{2,})+$` continuation never ends in a slash. -/
theorem matchAfterLetters_getLastD :
    ∀ l : List Char, matchAfterLetters l = true → l ≠ [] → ∀ x, l.getLastD x ≠ '/' := by
  intro l
  induction l using matchAfterLetters.induct with
  | case1 =>
    intro _ hne
    exact absurd rfl hne
  | case2 c1 c2 rest2 ih =>
    intro h _ x
    rw [show matchAfterLetters ('.' :: c1 :: c2 :: rest2) =
          (c1.isAlpha && c2.isAlpha && matchAfterLetters rest2) from rfl,
      Bool.and_eq_true, Bool.and_eq_true] at h
    obtain ⟨⟨h1, h2⟩, h3⟩ := h
    rw [List.getLastD_cons, List.getLastD_cons, List.getLastD_cons]
    by_cases hr2 : rest2 = []
    · subst hr2
      rw [List.getLastD_nil]
      intro heq
      rw [heq] at h2
      exact absurd h2 (by decide)
    · exact ih h3 hr2 c2
  | case3 rest hfalse =>
    intro h _ x
    exfalso
    cases rest with
    | nil =>
      rw [show matchAfterLetters ['.'] = false from rfl] at h
      exact absurd h (by decide)
    | cons a t =>
      cases t with
      | nil =>
        rw [matchAfterLetters.eq_def] at h
        simp at h
      | cons b u => exact hfalse a b u rfl
  | case4 c hc =>
    intro h _ x
    rw [matchAfterLetters.eq_def] at h
    simp only [if_neg hc, if_pos rfl] at h
    rw [List.getLastD_cons, List.getLastD_nil]
    intro heq
    rw [heq] at h
    exact absurd h (by decide)
  | case5 c rest hc hr ih =>
    intro h _ x
    rw [matchAfterLetters.eq_def] at h
    simp only [if_neg hc, if_neg hr, Bool.and_eq_true] at h
    rw [List.getLastD_cons]
    exact ih h.2 hr c

/-- A matched `(\.[a-zA-Z]{2,})+$` tail is nonempty. -/
theorem matchGroups_ne_nil {l : List Char} (h : matchGroups l = true) : l ≠ [] := by
  cases l with
  | nil => exact absurd h (by decide)
  | cons c rest => exact List.cons_ne_nil c rest

/-- A matched `(\.[a-zA-Z]{2,})+$` tail never ends in a slash. -/
theorem matchGroups_getLastD {l : List Char} (h : matchGroups l = true) (x : Char) :
    l.getLastD x ≠ '/' := by
  match l with
  | [] => exact absurd h (by simp [matchGroups])
  | [c] => exact absurd h (by simp [matchGroups])
  | [c, c1] => exact absurd h (by simp [matchGroups])
  | c :: c1 :: c2 :: rest =>
    rw [show matchGroups (c :: c1 :: c2 :: rest) =
          (c = '.' && c1.isAlpha && c2.isAlpha && matchAfterLetters rest) from rfl,
      Bool.and_eq_true, Bool.and_eq_true, Bool.and_eq_true] at h
    obtain ⟨⟨⟨hdot, h1⟩, h2⟩, h3⟩ := h
    rw [List.getLastD_cons, List.getLastD_cons, List.getLastD_cons]
    by_cases hr : rest = []
    · subst hr
      rw [List.getLastD_nil]
      intro heq
      rw [heq] at h2
      exact absurd h2 (by decide)
    · exact matchAfterLetters_getLastD rest h3 hr c2

/-- A valid domain name is nonempty, starts with an alphanumeric character
(so not with a slash), and does not end in a slash. -/
theorem valid_domain_shape (d : String) (h : is_valid_domain d = true) :
    (∃ c t, d.data = c :: t ∧ isAlnumA c = true) ∧ ∀ x, d.data.getLastD x ≠ '/' := by
  rw [is_valid_domain, List.any_eq_true] at h
  obtain ⟨i, _, hi⟩ := h
  rw [Bool.and_eq_true] at hi
  obtain ⟨hl, hg⟩ := hi
  constructor
  · cases hd : d.data with
    | nil =>
      rw [hd, List.take_nil] at hl
      exact absurd hl (by decide)
    | cons c t =>
      cases i with
      | zero =>
        rw [List.take_zero] at hl
        exact absurd hl (by decide)
      | succ j =>
        rw [hd, List.take_succ_cons, matchLabel, Bool.and_eq_true] at hl
        exact ⟨c, t, rfl, hl.1⟩
  · intro x
    have hsplit := List.take_append_drop i d.data
    have hne : List.drop i d.data ≠ [] := matchGroups_ne_nil hg
    calc d.data.getLastD x
        = (List.take i d.data ++ List.drop i d.data).getLastD x := by rw [hsplit]
      _ = (List.drop i d.data).getLastD x := getLastD_append_ne _ _ hne x x
      _ ≠ '/' := matchGroups_getLastD hg x

/-- `os.path.join` with a relative second argument and a first argument that
is nonempty and does not end in `/` inserts exactly one separator. -/
theorem pyJoinL_noslash {a b : List Char} (ha : a ≠ []) (haE : endsWithCharL a '/' = false)
    (hb : startsL ['/'] b = false) : pyJoinL a b = a ++ '/' :: b := by
  rw [pyJoinL, hb, if_neg ha, haE]
  simp

/-- A valid domain name does not start with a slash. -/
theorem valid_domain_startsL (d : String) (h : is_valid_domain d = true) :
    startsL ['/'] d.data = false := by
  obtain ⟨⟨c, t, hd, hc⟩, _⟩ := valid_domain_shape d h
  have hcne : ('/' : Char) ≠ c := by
    intro heq
    rw [← heq] at hc
    exact absurd hc (by decide)
  rw [hd]
  simp [startsL, hcne]

/-- A valid domain name is a nonempty character list. -/
theorem valid_domain_ne_nil (d : String) (h : is_valid_domain d = true) : d.data ≠ [] := by
  obtain ⟨⟨c, t, hd, _⟩, _⟩ := valid_domain_shape d h
  rw [hd]
  exact List.cons_ne_nil c t

/-- For a valid domain `d`, the document root that `create_domain_files`
computes is exactly `'/var/www/' + d + '/public_html'`. -/
theorem document_root_eq (d : String) (h : is_valid_domain d = true) :
    pyJoin (pyJoin WEBSITES_DIR d) "public_html" = "/var/www/" ++ d ++ "/public_html" := by
  apply String.ext
  show pyJoinL (pyJoinL WEBSITES_DIR.data d.data) "public_html".data
      = ("/var/www/" ++ d ++ "/public_html").data
  rw [pyJoinL_noslash (by decide) (by decide) (valid_domain_startsL d h)]
  have hne : WEBSITES_DIR.data ++ '/' :: d.data ≠ [] := by simp
  have hend : endsWithCharL (WEBSITES_DIR.data ++ '/' :: d.data) '/' = false := by
    rw [endsWithCharL, getLastD_append_ne _ _ (List.cons_ne_nil _ _) ' ' ' ',
      List.getLastD_cons, decide_eq_false ((valid_domain_shape d h).2 '/'), Bool.false_and]
  rw [pyJoinL_noslash hne hend (by decide), String.data_append, String.data_append]
  rw [show ("/var/www/" : String).data = WEBSITES_DIR.data ++ ['/'] from rfl,
    show ("/public_html" : String).data = '/' :: ("public_html" : String).data from rfl]
  simp

/-- For a valid domain `d`, the nginx site-config path is exactly
`'/etc/nginx/sites-available/' + d`. -/
theorem nginx_config_path_eq (d : String) (h : is_valid_domain d = true) :
    pyJoin NGINX_SITES_AVAILABLE d = "/etc/nginx/sites-available/" ++ d := by
  apply String.ext
  show pyJoinL NGINX_SITES_AVAILABLE.data d.data = ("/etc/nginx/sites-available/" ++ d).data
  rw [pyJoinL_noslash (by decide) (by decide) (valid_domain_startsL d h), String.data_append]
  rw [show ("/etc/nginx/sites-available/" : String).data
        = NGINX_SITES_AVAILABLE.data ++ ['/'] from rfl]
  simp

/-- For a valid domain `d`, the default-index path is exactly
`'/var/www/' + d + '/public_html/index.html'`. -/
theorem index_path_eq (d : String) :
    pyJoin ("/var/www/" ++ d ++ "/public_html") "index.html"
      = "/var/www/" ++ d ++ "/public_html/index.html" := by
  apply String.ext
  show pyJoinL ("/var/www/" ++ d ++ "/public_html").data "index.html".data
      = ("/var/www/" ++ d ++ "/public_html/index.html").data
  have hdata : ("/var/www/" ++ d ++ "/public_html").data
      = ("/var/www/" ++ d).data ++ ("/public_html" : String).data := by
    rw [String.data_append]
  have hne : ("/var/www/" ++ d ++ "/public_html").data ≠ [] := by
    rw [hdata]
    simp
  have hend : endsWithCharL ("/var/www/" ++ d ++ "/public_html").data '/' = false := by
    rw [endsWithCharL, hdata, getLastD_append_ne _ _ (by decide) ' ' ' ',
      decide_eq_false (show ¬("/public_html" : String).data.getLastD ' ' = '/' by decide),
      Bool.false_and]
  rw [pyJoinL_noslash hne hend (by decide), hdata]
  rw [String.data_append, String.data_append, String.data_append]
  rw [show ("/public_html/index.html" : String).data
        = ("/public_html" : String).data ++ '/' :: ("index.html" : String).data from rfl]
  simp

/-- A path just recorded is in the file-system set. -/
theorem mem_fsAdd_self (fs : List String) (p : String) : p ∈ fsAdd fs p := by
  rw [fsAdd]
  split
  · assumption
  · exact List.mem_cons_self p fs

/-- Recording a path keeps every existing path. -/
theorem mem_fsAdd_of_mem (fs : List String) (p q : String) (h : q ∈ fs) : q ∈ fsAdd fs p := by
  rw [fsAdd]
  split
  · exact h
  · exact List.mem_cons_of_mem p h

/-- Membership is preserved by the conditional record step. -/
theorem mem_ite_fsAdd {c : Prop} [Decidable c] (fs : List String) (p q : String) (h : q ∈ fs) :
    q ∈ (if c then fs else fsAdd fs p) := by
  split
  · exact h
  · exact mem_fsAdd_of_mem fs p q h

/-- The conditionally recorded path is in the file-system set either way. -/
theorem mem_ite_self (fs : List String) (p : String) :
    p ∈ (if p ∈ fs then fs else fsAdd fs p) := by
  split
  · assumption
  · exact mem_fsAdd_self fs p

/-- C2: for every add-domain POST whose submitted name `d` (stripped and
lowercased) is nonempty, passes `is_valid_domain`, is not already stored, and
whose file-system step raises no exception, the resulting domains list is the
old list with exactly one new record appended - named `d`, with path
`'/var/www/' + d + '/public_html'`, `ssl = False` and `status = 'active'` -
and the nginx site config and the default `index.html` for `d` exist in the
file system afterwards, so the JSON record is synchronized with the external
config-file state. -/
theorem C2_add_domain_success_appends_record (form now d : String) (ng : NginxOracle)
    (w : World) (hd : d = pyLower (pyStrip form)) (h1 : d ≠ "")
    (h2 : is_valid_domain d = true)
    (h3 : w.domains.any (fun r => r.name = d) = false) :
    (add_domain form now ⟨none, ng⟩ w).1.domains =
        w.domains ++
          [{ name := d, path := "/var/www/" ++ d ++ "/public_html", ssl := false,
             created := now, status := "active" }] ∧
      ("/etc/nginx/sites-available/" ++ d) ∈ (add_domain form now ⟨none, ng⟩ w).1.fs ∧
      ("/var/www/" ++ d ++ "/public_html/index.html") ∈ (add_domain form now ⟨none, ng⟩ w).1.fs ∧
      (add_domain form now ⟨none, ng⟩ w).2.2 = .redirect "domains" := by
  subst hd
  unfold add_domain create_domain_files
  rw [if_neg h1, if_neg (by simp [h2]), if_neg (by simp [h3])]
  dsimp only
  rw [document_root_eq _ h2]
  refine ⟨rfl, ?_, ?_, rfl⟩
  · rw [← nginx_config_path_eq _ h2]
    exact mem_ite_fsAdd _ _ _ (mem_fsAdd_self _ _)
  · rw [← index_path_eq]
    exact mem_ite_fsAdd _ _ _
      (mem_fsAdd_of_mem _ _ _ (mem_fsAdd_of_mem _ _ _ (mem_fsAdd_of_mem _ _ _ (mem_ite_self _ _))))

/-- Closed instance of `C2_add_domain_success_appends_record` on a fresh
state. -/
theorem C2_add_domain_witness :
    (add_domain "example.com" "2025-01-01 00:00" ⟨none, .ok⟩ emptyWorld).1.domains =
        emptyWorld.domains ++
          [{ name := "example.com", path := "/var/www/example.com/public_html", ssl := false,
             created := "2025-01-01 00:00", status := "active" }] ∧
      ("/etc/nginx/sites-available/example.com") ∈
        (add_domain "example.com" "2025-01-01 00:00" ⟨none, .ok⟩ emptyWorld).1.fs ∧
      ("/var/www/example.com/public_html/index.html") ∈
        (add_domain "example.com" "2025-01-01 00:00" ⟨none, .ok⟩ emptyWorld).1.fs ∧
      (add_domain "example.com" "2025-01-01 00:00" ⟨none, .ok⟩ emptyWorld).2.2 =
        .redirect "domains" := by
  have h := C2_add_domain_success_appends_record "example.com" "2025-01-01 00:00"
    "example.com" .ok emptyWorld (by decide) (by decide) (by decide) (by decide)
  simpa using h

/-! ### C10 - the backup-filename guard -/

/-- Being inside the backups directory: the directory itself, or a path that
continues it with a `/` separator. -/
def insideBackupsDir (p : String) : Prop :=
  normpath p = BACKUPS_DIR ∨ List.isPrefixOf (BACKUPS_DIR ++ "/").data (normpath p).data

instance (p : String) : Decidable (insideBackupsDir p) := by
  unfold insideBackupsDir; infer_instance

/-- A character whose singleton never occurs as a substring occurs nowhere. -/
theorem isSubstrL_single_false {x : Char} :
    ∀ l : List Char, isSubstrL [x] l = false → ∀ c ∈ l, c ≠ x := by
  intro l
  induction l with
  | nil =>
    intro _ c hc
    cases hc
  | cons a t ih =>
    intro h c hc
    rw [isSubstrL, Bool.or_eq_false_iff] at h
    obtain ⟨h1, h2⟩ := h
    cases hc with
    | head =>
      intro heq
      subst heq
      simp [startsL] at h1
    | tail _ hc => exact ih h2 c hc

/-- A list with no slash does not start with one. -/
theorem startsL_slash_of_no_slash {l : List Char} (h : ∀ c ∈ l, c ≠ '/') :
    startsL ['/'] l = false := by
  cases l with
  | nil => rfl
  | cons a t =>
    rw [startsL]
    have := h a (List.mem_cons_self a t)
    simp
    intro heq
    exact absurd heq.symm this

/-- Splitting after a leading slash. -/
theorem splitSlash_slash_cons (l : List Char) : splitSlash ('/' :: l) = [] :: splitSlash l := rfl

/-- Unfolding `splitSlash` at a non-slash head. -/
theorem splitSlash_cons_ne (a : Char) (t : List Char) (ha : a ≠ '/') :
    splitSlash (a :: t) =
      (match splitSlash t with
       | [] => [[a]]
       | g :: gs => (a :: g) :: gs) := by
  rw [splitSlash.eq_def]
  split
  · rename_i heq
    cases heq
  · rename_i heq
    injection heq with h1 h2
    exact absurd h1 ha
  · rename_i c rest heq
    injection heq with h1 h2
    subst h1
    subst h2
    rfl

/-- A slash-free list is one whole component. -/
theorem splitSlash_no_slash : ∀ l : List Char, (∀ c ∈ l, c ≠ '/') → splitSlash l = [l] := by
  intro l
  induction l with
  | nil =>
    intro _
    rfl
  | cons a t ih =>
    intro h
    rw [splitSlash_cons_ne a t (h a (List.mem_cons_self a t)),
      ih fun c hc => h c (List.mem_cons_of_mem a hc)]

/-- A slash-free list followed by a slash splits off as one component. -/
theorem splitSlash_no_slash_append :
    ∀ (l1 : List Char), (∀ c ∈ l1, c ≠ '/') → ∀ l2 : List Char,
      splitSlash (l1 ++ '/' :: l2) = l1 :: splitSlash l2 := by
  intro l1
  induction l1 with
  | nil =>
    intro _ l2
    rw [List.nil_append, splitSlash_slash_cons]
  | cons a t ih =>
    intro h l2
    rw [List.cons_append, splitSlash_cons_ne a _ (h a (List.mem_cons_self a t)),
      ih (fun c hc => h c (List.mem_cons_of_mem a hc)) l2]

/-- A list is a Boolean prefix of itself followed by anything. -/
theorem isPrefixOf_append_self : ∀ (l r : List Char), List.isPrefixOf l (l ++ r) = true := by
  intro l r
  induction l with
  | nil => simp [List.isPrefixOf]
  | cons a t ih => simp [List.isPrefixOf, ih]

/-- Normalizing `'/data/backups/' + f` for a slash-free `f` other than `..`:
empty and `.` collapse to the directory, anything else stays right below it. -/
theorem normpathL_backups (f : List Char) (hno : ∀ c ∈ f, c ≠ '/') (hdd : f ≠ ['.', '.']) :
    normpathL (BACKUPS_DIR.data ++ '/' :: f) =
      if f = [] ∨ f = ['.'] then BACKUPS_DIR.data else BACKUPS_DIR.data ++ '/' :: f := by
  have hp : BACKUPS_DIR.data ++ '/' :: f
      = '/' :: ("data".data ++ '/' :: ("backups".data ++ '/' :: f)) := by
    rw [show BACKUPS_DIR.data = '/' :: ("data".data ++ '/' :: "backups".data) from rfl]
    simp
  rw [hp, normpathL, if_neg (by simp)]
  rw [show startsL ['/'] ('/' :: ("data".data ++ '/' :: ("backups".data ++ '/' :: f))) = true
      from rfl]
  rw [show startsL ['/', '/'] ('/' :: ("data".data ++ '/' :: ("backups".data ++ '/' :: f)))
      = false from rfl]
  simp only [Bool.false_eq_true, false_and, if_false, if_true]
  rw [splitSlash_slash_cons, splitSlash_no_slash_append "data".data (by decide),
    splitSlash_no_slash_append "backups".data (by decide), splitSlash_no_slash f hno]
  rw [List.foldl_cons, List.foldl_cons, List.foldl_cons, List.foldl_cons, List.foldl_nil]
  rw [show normStep 1 [] [] = [] from rfl,
    show normStep 1 [] "data".data = ["data".data] from by decide,
    show normStep 1 ["data".data] "backups".data = ["backups".data, "data".data] from by decide]
  by_cases hf : f = [] ∨ f = ['.']
  · rw [normStep, if_pos hf, if_pos hf]
    rfl
  · rw [normStep, if_neg hf, if_pos (Or.inl hdd), if_neg hf]
    rw [show ([f, "backups".data, "data".data].reverse) = ["data".data, "backups".data, f]
        from rfl]
    rw [show List.replicate 1 '/' ++ joinSlash ["data".data, "backups".data, f]
        = BACKUPS_DIR.data ++ '/' :: f from by
      rw [show joinSlash ["data".data, "backups".data, f]
          = "data".data ++ '/' :: ("backups".data ++ '/' :: f) from rfl]
      rw [show BACKUPS_DIR.data = '/' :: ("data".data ++ '/' :: "backups".data) from rfl]
      simp]
    rw [if_neg (by simp)]
    exact hp

/-- For every filename passing the backup guard, the joined path lies inside
the backups directory. -/
theorem join_backups_inside (filename : String) (hg : backupNameBlocked filename = false) :
    (pyJoin BACKUPS_DIR filename).data = BACKUPS_DIR.data ++ '/' :: filename.data ∧
      insideBackupsDir (pyJoin BACKUPS_DIR filename) := by
  rw [backupNameBlocked, Bool.or_eq_false_iff] at hg
  obtain ⟨hdd, hsl⟩ := hg
  rw [pyIn, show ("/" : String).data = ['/'] from rfl] at hsl
  have hno : ∀ c ∈ filename.data, c ≠ '/' := isSubstrL_single_false filename.data hsl
  have hddne : filename.data ≠ ['.', '.'] := by
    intro heq
    rw [pyIn, show (".." : String).data = ['.', '.'] from rfl, heq] at hdd
    exact absurd hdd (by decide)
  have hjoin : (pyJoin BACKUPS_DIR filename).data
      = BACKUPS_DIR.data ++ '/' :: filename.data := by
    show pyJoinL BACKUPS_DIR.data filename.data = _
    rw [pyJoinL_noslash (by decide) (by decide) (startsL_slash_of_no_slash hno)]
  refine ⟨hjoin, ?_⟩
  rw [insideBackupsDir]
  have hnorm : (normpath (pyJoin BACKUPS_DIR filename)).data
      = normpathL (BACKUPS_DIR.data ++ '/' :: filename.data) := by
    show normpathL (pyJoin BACKUPS_DIR filename).data = _
    rw [hjoin]
  rw [normpathL_backups filename.data hno hddne] at hnorm
  by_cases hf : filename.data = [] ∨ filename.data = ['.']
  · left
    apply String.ext
    rw [hnorm, if_pos hf]
  · right
    rw [hnorm, if_neg hf,
      show BACKUPS_DIR.data ++ '/' :: filename.data
          = (BACKUPS_DIR ++ "/").data ++ filename.data from by
        rw [String.data_append]
        simp]
    exact isPrefixOf_append_self _ _

/-- C10 counterexample: the claim that for every filename passing the guard
the single path the backup handlers operate on is
`os.path.join('/data/backups', filename)` is false: a successful
`restore_backup` of a present `.tar.gz` also runs
`tar.extractall(WEBSITES_DIR)`, which writes the archive's members under
`/var/www` — here the member `site/index.html` is written to
`/var/www/site/index.html`, a path different from the joined backup path. -/
theorem C10_restore_writes_outside_join :
    backupNameBlocked "site.tar.gz" = false ∧
      "/var/www/site/index.html" ∈ fsPaths
        (restore_backup "site.tar.gz" ⟨none, none, true, "", ["site/index.html"]⟩
          ⟨["/data/backups/site.tar.gz"], [], [], [], []⟩).2.1 ∧
      "/var/www/site/index.html" ≠ pyJoin BACKUPS_DIR "site.tar.gz" := by
  decide

/-- C10 (amended): the backup handlers (`download_backup`, `delete_backup`,
`restore_backup`) reject every filename containing `..` or `/` before any
file access, flashing `Invalid filename` and redirecting; for every filename
passing the guard, the joined path `os.path.join(BACKUPS_DIR, filename)` lies
inside the backups directory and is the only path `download_backup` and
`delete_backup` operate on, while `restore_backup` in addition writes the
extraction paths `os.path.join(WEBSITES_DIR, member)` for the members of the
tar archive — archive-determined paths that the guard does not constrain. -/
theorem C10_backup_guard_and_extraction (filename : String) (orc : RestoreOracle)
    (w : World) :
    (backupNameBlocked filename = true →
      touchesNothing (download_backup filename w).1 = true ∧
        (download_backup filename w).2 = .redirect "backups" ∧
        Ev.flash "Invalid filename" "error" ∈ (download_backup filename w).1 ∧
        touchesNothing (delete_backup filename w).2.1 = true ∧
        (delete_backup filename w).1 = w ∧
        (delete_backup filename w).2.2 = .redirect "backups" ∧
        Ev.flash "Invalid filename" "error" ∈ (delete_backup filename w).2.1 ∧
        touchesNothing (restore_backup filename orc w).2.1 = true ∧
        (restore_backup filename orc w).1 = w ∧
        (restore_backup filename orc w).2.2 = .redirect "backups" ∧
        Ev.flash "Invalid filename" "error" ∈ (restore_backup filename orc w).2.1) ∧
    (backupNameBlocked filename = false →
      insideBackupsDir (pyJoin BACKUPS_DIR filename) ∧
        (∀ p ∈ fsPaths (download_backup filename w).1, p = pyJoin BACKUPS_DIR filename) ∧
        (∀ p ∈ fsPaths (delete_backup filename w).2.1, p = pyJoin BACKUPS_DIR filename) ∧
        (∀ p ∈ fsPaths (restore_backup filename orc w).2.1,
          p = pyJoin BACKUPS_DIR filename ∨
            ∃ mem ∈ orc.members, p = pyJoin WEBSITES_DIR mem)) := by
  constructor
  · intro hb
    refine ⟨?_, ?_, ?_, ?_, ?_, ⟨?_, ?_, ?_, ?_, ?_, ?_⟩⟩ <;>
      simp [download_backup, delete_backup, restore_backup, hb, touchesNothing]
  · intro hb
    refine ⟨(join_backups_inside filename hb).2, ?_, ?_, ?_⟩
    · simp only [download_backup]
      (repeat' split) <;> simp [fsPaths]
    · simp only [delete_backup]
      (repeat' split) <;> simp [fsPaths]
    · simp only [restore_backup]
      (repeat' split) <;>
        simp [fsPaths, List.filterMap_append, List.filterMap_map, Function.comp] <;>
        (intro p hp; exact Or.inr ⟨p, hp, rfl⟩)

/-- Closed instance of `C10_backup_guard_and_extraction`: a traversal
filename is rejected without touching any file, and a clean filename joins to
a path inside the backups directory. -/
theorem C10_backup_guard_witness :
    touchesNothing (download_backup "../etc/passwd" emptyWorld).1 = true ∧
      insideBackupsDir (pyJoin BACKUPS_DIR "site_20250101.tar.gz") := by
  refine ⟨?_, ?_⟩
  · exact (((C10_backup_guard_and_extraction "../etc/passwd" ⟨none, none, true, "", []⟩
      emptyWorld).1) (by decide)).1
  · exact (((C10_backup_guard_and_extraction "site_20250101.tar.gz" ⟨none, none, true, "", []⟩
      emptyWorld).2) (by decide)).1

/-! ### C9 - the `json.dump(..., indent=2)` / `json.load` text layer -/

/-- Lowercase hexadecimal digit, as Python formats `\uXXXX` escapes. -/
def hexDigitChar (n : Nat) : Char :=
  if n < 10 then Char.ofNat (48 + n) else Char.ofNat (87 + n)

/-- Four lowercase hex digits. -/
def hex4 (n : Nat) : List Char :=
  [hexDigitChar (n / 4096 % 16), hexDigitChar (n / 256 % 16),
   hexDigitChar (n / 16 % 16), hexDigitChar (n % 16)]

/-- One character as `json.dump` with the default `ensure_ascii=True` emits
it: printable ASCII raw except quote and backslash, the short escapes for the
control characters that have them, `\uXXXX` for the rest, and a surrogate
pair for astral characters. -/
def escapeChar (c : Char) : List Char :=
  if c = '"' then ['\\', '"']
  else if c = '\\' then ['\\', '\\']
  else if c = '\x08' then ['\\', 'b']
  else if c = '\x0c' then ['\\', 'f']
  else if c = '\n' then ['\\', 'n']
  else if c = '\x0d' then ['\\', 'r']
  else if c = '\t' then ['\\', 't']
  else if 0x20 ≤ c.toNat ∧ c.toNat ≤ 0x7e then [c]
  else if c.toNat < 0x10000 then '\\' :: 'u' :: hex4 c.toNat
  else '\\' :: 'u' :: hex4 (0xd800 + (c.toNat - 0x10000) / 0x400)
    ++ '\\' :: 'u' :: hex4 (0xdc00 + (c.toNat - 0x10000) % 0x400)

/-- The escaped body of a JSON string literal. -/
def encBody (l : List Char) : List Char := l.foldr (fun c acc => escapeChar c ++ acc) []

/-- A JSON string literal: quote, escaped body, quote. -/
def encStr (s : String) : List Char := '"' :: (encBody s.data ++ ['"'])

mutual

/-- `json.dump(v, f, indent=2)` at nesting depth `d`: scalars inline; a
nonempty array or object opens its bracket, newline-indents every item two
spaces deeper, and closes on a fresh line at the current depth; object keys
are followed by `': '`. -/
def dumpVal : Json → Nat → List Char
  | .null, _ => ['n', 'u', 'l', 'l']
  | .bool true, _ => ['t', 'r', 'u', 'e']
  | .bool false, _ => ['f', 'a', 'l', 's', 'e']
  | .int n, _ => intChars n
  | .str s, _ => encStr s
  | .arr [], _ => ['[', ']']
  | .arr (x :: xs), d =>
    '[' :: '\n' :: (List.replicate (2 * (d + 1)) ' ' ++ dumpVal x (d + 1)
      ++ dumpArrTail xs (d + 1) ++ '\n' :: (List.replicate (2 * d) ' ' ++ [']']))
  | .obj [], _ => ['\x7b', '\x7d']
  | .obj (kv :: kvs), d =>
    '\x7b' :: '\n' :: (List.replicate (2 * (d + 1)) ' ' ++ encStr kv.1 ++ ':' :: ' ' ::
      (dumpVal kv.2 (d + 1) ++ dumpObjTail kvs (d + 1) ++ '\n'
        :: (List.replicate (2 * d) ' ' ++ ['\x7d'])))

/-- The `,\n<indent>item` continuation of an array body. -/
def dumpArrTail : List Json → Nat → List Char
  | [], _ => []
  | x :: xs, d =>
    ',' :: '\n' :: (List.replicate (2 * d) ' ' ++ dumpVal x d ++ dumpArrTail xs d)

/-- The `,\n<indent>"key": value` continuation of an object body. -/
def dumpObjTail : List (String × Json) → Nat → List Char
  | [], _ => []
  | kv :: kvs, d =>
    ',' :: '\n' :: (List.replicate (2 * d) ' ' ++ encStr kv.1 ++ ':' :: ' '
      :: (dumpVal kv.2 d ++ dumpObjTail kvs d))

end

/-- `json.dumps(v, indent=2)` (what `json.dump` writes to the file). -/
def dumps (v : Json) : String := ⟨dumpVal v 0⟩

/-- JSON whitespace (`json.decoder` skips exactly space, tab, newline,
carriage return). -/
def isJsonWs (c : Char) : Bool := c = ' ' || c = '\t' || c = '\n' || c = '\x0d'

/-- Skip JSON whitespace. -/
def skipWs (s : List Char) : List Char := s.dropWhile isJsonWs

/-- Value of one hex digit (`int(.., 16)` accepts both cases). -/
def hexVal (c : Char) : Option Nat :=
  if '0' ≤ c ∧ c ≤ '9' then some (c.toNat - 48)
  else if 'a' ≤ c ∧ c ≤ 'f' then some (c.toNat - 87)
  else if 'A' ≤ c ∧ c ≤ 'F' then some (c.toNat - 55)
  else none

/-- Value of a four-hex-digit escape. -/
def hex4Val (a b c d : Char) : Option Nat := do
  let x ← hexVal a
  let y ← hexVal b
  let z ← hexVal c
  let w ← hexVal d
  pure (((x * 16 + y) * 16 + z) * 16 + w)

/-- Continuation type for the string scanner: parse the remaining body. -/
abbrev StrK := List Char → Option (List Char × List Char)

/-- The `\uXXXX` low-surrogate continuation of `py_scanstring`: after a high
surrogate `u`, a following `\uXXXX` with a low surrogate combines into one
astral character; anything else appends the lone value (unreachable from the
serializer) and rescans. -/
def parseLowSurrogate (k : StrK) (u : Nat) (s : List Char) :
    Option (List Char × List Char) :=
  match s with
  | s1 :: s2 :: rest4 =>
    if s1 = '\\' ∧ s2 = 'u' then
      match rest4 with
      | e2 :: f2 :: g2 :: h2 :: rest5 =>
        match hex4Val e2 f2 g2 h2 with
        | none => none
        | some u2 =>
          if 0xdc00 ≤ u2 ∧ u2 ≤ 0xdfff then
            (k rest5).map fun p =>
              (Char.ofNat (0x10000 + (u - 0xd800) * 0x400 + (u2 - 0xdc00)) :: p.1, p.2)
          else (k s).map fun p => (Char.ofNat u :: p.1, p.2)
      | _ => none
    else (k s).map fun p => (Char.ofNat u :: p.1, p.2)
  | _ => (k s).map fun p => (Char.ofNat u :: p.1, p.2)

/-- The `\uXXXX` escape of `py_scanstring`: four hex digits, with surrogate
handling. -/
def parseUEscape (k : StrK) (s : List Char) : Option (List Char × List Char) :=
  match s with
  | a :: b :: c' :: d :: rest3 =>
    match hex4Val a b c' d with
    | none => none
    | some u =>
      if 0xd800 ≤ u ∧ u ≤ 0xdbff then parseLowSurrogate k u rest3
      else (k rest3).map fun p => (Char.ofNat u :: p.1, p.2)
  | _ => none

/-- One backslash escape of `py_scanstring`: the short escapes and `\u`. -/
def parseEscape (k : StrK) (s : List Char) : Option (List Char × List Char) :=
  match s with
  | [] => none
  | e :: rest2 =>
    if e = '"' then (k rest2).map fun p => ('"' :: p.1, p.2)
    else if e = '\\' then (k rest2).map fun p => ('\\' :: p.1, p.2)
    else if e = '/' then (k rest2).map fun p => ('/' :: p.1, p.2)
    else if e = 'b' then (k rest2).map fun p => ('\x08' :: p.1, p.2)
    else if e = 'f' then (k rest2).map fun p => ('\x0c' :: p.1, p.2)
    else if e = 'n' then (k rest2).map fun p => ('\n' :: p.1, p.2)
    else if e = 'r' then (k rest2).map fun p => ('\x0d' :: p.1, p.2)
    else if e = 't' then (k rest2).map fun p => ('\t' :: p.1, p.2)
    else if e = 'u' then parseUEscape k rest2
    else none

/-- The body of a JSON string after the opening quote, as `py_scanstring`
reads it in strict mode: raw characters up to the closing quote (control
characters raise), escapes through `parseEscape`.  A lone surrogate falls
back to `Char.ofNat` (unreachable from the serializer, whose inputs are
scalar values).  The fuel only bounds the number of produced characters;
callers pass the input length. -/
def parseStringBody : Nat → List Char → Option (List Char × List Char)
  | 0, _ => none
  | fuel + 1, s =>
    match s with
    | [] => none
    | c :: rest =>
      if c = '"' then some ([], rest)
      else if c = '\\' then parseEscape (fun l => parseStringBody fuel l) rest
      else if c.toNat < 0x20 then none
      else (parseStringBody fuel rest).map fun p => (c :: p.1, p.2)

/-- The digits of a JSON integer token (`NUMBER_RE`: `0` alone or a nonzero
digit followed by digits), rejecting the fraction and exponent forms (floats
are out of scope for the panel's files). -/
def parseIntToken (s : List Char) : Option (Nat × List Char) :=
  match s with
  | [] => none
  | c :: rest =>
    if c = '0' then
      match rest with
      | c2 :: _ => if c2 = '.' ∨ c2 = 'e' ∨ c2 = 'E' then none else some (0, rest)
      | [] => some (0, rest)
    else
      let ds := (c :: rest).takeWhile Char.isDigit
      let rest2 := (c :: rest).dropWhile Char.isDigit
      if ds = [] then none
      else
        match rest2 with
        | c2 :: _ =>
          if c2 = '.' ∨ c2 = 'e' ∨ c2 = 'E' then none
          else some (ds.foldl (fun acc ch => acc * 10 + (ch.toNat - 48)) 0, rest2)
        | [] => some (ds.foldl (fun acc ch => acc * 10 + (ch.toNat - 48)) 0, rest2)

mutual

/-- `scan_once` of `json.decoder` on the character list (fuel-indexed; the
callers always supply enough fuel).  Dispatches on the first character:
literals, string, array, object, or number. -/
def parseVal : Nat → List Char → Option (Json × List Char)
  | 0, _ => none
  | fuel + 1, s =>
    match s with
    | [] => none
    | c :: rest =>
      if c = 'n' then
        match rest with
        | 'u' :: 'l' :: 'l' :: r => some (.null, r)
        | _ => none
      else if c = 't' then
        match rest with
        | 'r' :: 'u' :: 'e' :: r => some (.bool true, r)
        | _ => none
      else if c = 'f' then
        match rest with
        | 'a' :: 'l' :: 's' :: 'e' :: r => some (.bool false, r)
        | _ => none
      else if c = '"' then
        (parseStringBody (rest.length + 1) rest).map fun p => (.str ⟨p.1⟩, p.2)
      else if c = '[' then
        match skipWs rest with
        | [] => none
        | c2 :: r2 =>
          if c2 = ']' then some (.arr [], r2)
          else (parseArrItems fuel (c2 :: r2)).map fun p => (.arr p.1, p.2)
      else if c = '\x7b' then
        match skipWs rest with
        | [] => none
        | c2 :: r2 =>
          if c2 = '\x7d' then some (.obj [], r2)
          else (parseObjItems fuel (c2 :: r2)).map fun p => (.obj p.1, p.2)
      else if c = '-' then
        (parseIntToken rest).map fun p => (.int (-(p.1 : Int)), p.2)
      else if c.isDigit then
        (parseIntToken (c :: rest)).map fun p => (.int (p.1 : Int), p.2)
      else none

/-- One-or-more comma-separated array items up to the closing bracket. -/
def parseArrItems : Nat → List Char → Option (List Json × List Char)
  | 0, _ => none
  | fuel + 1, s =>
    match parseVal fuel s with
    | none => none
    | some (v, r) =>
      match skipWs r with
      | [] => none
      | c :: r2 =>
        if c = ',' then (parseArrItems fuel (skipWs r2)).map fun p => (v :: p.1, p.2)
        else if c = ']' then some ([v], r2)
        else none

/-- One-or-more `"key": value` members up to the closing brace. -/
def parseObjItems : Nat → List Char → Option (List (String × Json) × List Char)
  | 0, _ => none
  | fuel + 1, s =>
    match s with
    | [] => none
    | c :: rest =>
      if c = '"' then
        match parseStringBody (rest.length + 1) rest with
        | none => none
        | some (kcs, r1) =>
          match skipWs r1 with
          | [] => none
          | c2 :: r2 =>
            if c2 = ':' then
              match parseVal fuel (skipWs r2) with
              | none => none
              | some (v, r3) =>
                match skipWs r3 with
                | [] => none
                | c3 :: r4 =>
                  if c3 = ',' then
                    (parseObjItems fuel (skipWs r4)).map fun p => ((⟨kcs⟩, v) :: p.1, p.2)
                  else if c3 = '\x7d' then some ([(⟨kcs⟩, v)], r4)
                  else none
            else none
      else none

end

/-- `json.load`: skip leading whitespace, scan one value, and require only
whitespace to follow. -/
def loads (s : String) : Option Json :=
  let cs := skipWs s.data
  match parseVal (cs.length + 1) cs with
  | some (v, rest) => if skipWs rest = [] then some v else none
  | none => none

/-! ### C9 - inverse lemmas for the string codec -/

/-- A hex digit's character carries exactly its value. -/
theorem hexVal_hexDigitChar (k : Nat) (h : k < 16) : hexVal (hexDigitChar k) = some k := by
  interval_cases k <;> decide

/-- Reading back four emitted hex digits recovers the value. -/
theorem hex4Val_hex4 (n : Nat) (h : n < 0x10000) :
    hex4Val (hexDigitChar (n / 4096 % 16)) (hexDigitChar (n / 256 % 16))
      (hexDigitChar (n / 16 % 16)) (hexDigitChar (n % 16)) = some n := by
  have m16 : ∀ k : Nat, k % 16 < 16 := fun k => Nat.mod_lt _ (by omega)
  rw [hex4Val, hexVal_hexDigitChar _ (m16 _), hexVal_hexDigitChar _ (m16 _),
    hexVal_hexDigitChar _ (m16 _), hexVal_hexDigitChar _ (m16 _)]
  show some (((n / 4096 % 16 * 16 + n / 256 % 16) * 16 + n / 16 % 16) * 16 + n % 16) = some n
  congr 1
  omega

/-- A `Char` value is a Unicode scalar: below the surrogates or between them
and `0x110000`. -/
theorem char_toNat_valid (c : Char) :
    c.toNat < 0xd800 ∨ (0xdfff < c.toNat ∧ c.toNat < 0x110000) := c.valid

/-- Scanner step: a closing quote ends the string. -/
theorem psb_quote (fuel : Nat) (s : List Char) :
    parseStringBody (fuel + 1) ('"' :: s) = some ([], s) := rfl

/-- Scanner step: a backslash dispatches to the escape reader. -/
theorem psb_bs (fuel : Nat) (s : List Char) :
    parseStringBody (fuel + 1) ('\\' :: s)
      = parseEscape (fun l => parseStringBody fuel l) s := rfl

/-- Scanner step: an ordinary character is copied through. -/
theorem psb_raw (c : Char) (fuel : Nat) (s : List Char)
    (h1 : ¬ c = '"') (h2 : ¬ c = '\\') (h3 : ¬ c.toNat < 0x20) :
    parseStringBody (fuel + 1) (c :: s)
      = (parseStringBody fuel s).map fun p => (c :: p.1, p.2) := by
  rw [parseStringBody.eq_def]
  simp only [if_neg h1, if_neg h2, if_neg h3]

/-- Escape step: `\"`. -/
theorem parseEscape_q (k : StrK) (s : List Char) :
    parseEscape k ('"' :: s) = (k s).map fun p => ('"' :: p.1, p.2) := rfl

/-- Escape step: `\\`. -/
theorem parseEscape_bs (k : StrK) (s : List Char) :
    parseEscape k ('\\' :: s) = (k s).map fun p => ('\\' :: p.1, p.2) := rfl

/-- Escape step: `\b`. -/
theorem parseEscape_b (k : StrK) (s : List Char) :
    parseEscape k ('b' :: s) = (k s).map fun p => ('\x08' :: p.1, p.2) := rfl

/-- Escape step: `\f`. -/
theorem parseEscape_f (k : StrK) (s : List Char) :
    parseEscape k ('f' :: s) = (k s).map fun p => ('\x0c' :: p.1, p.2) := rfl

/-- Escape step: `\n`. -/
theorem parseEscape_n (k : StrK) (s : List Char) :
    parseEscape k ('n' :: s) = (k s).map fun p => ('\n' :: p.1, p.2) := rfl

/-- Escape step: `\r`. -/
theorem parseEscape_r (k : StrK) (s : List Char) :
    parseEscape k ('r' :: s) = (k s).map fun p => ('\x0d' :: p.1, p.2) := rfl

/-- Escape step: `\t`. -/
theorem parseEscape_t (k : StrK) (s : List Char) :
    parseEscape k ('t' :: s) = (k s).map fun p => ('\t' :: p.1, p.2) := rfl

/-- Escape step: `\u` hands over to the hex reader. -/
theorem parseEscape_u (k : StrK) (s : List Char) :
    parseEscape k ('u' :: s) = parseUEscape k s := rfl

/-- Reading back an emitted `\uXXXX` outside the high-surrogate range. -/
theorem parseUEscape_hex (k : StrK) (n : Nat) (s : List Char) (h : n < 0x10000)
    (hs : ¬ (0xd800 ≤ n ∧ n ≤ 0xdbff)) :
    parseUEscape k (hex4 n ++ s)
      = (k s).map fun p => (Char.ofNat n :: p.1, p.2) := by
  rw [hex4]
  show parseUEscape k
    (hexDigitChar (n / 4096 % 16) :: hexDigitChar (n / 256 % 16)
      :: hexDigitChar (n / 16 % 16) :: hexDigitChar (n % 16) :: s) = _
  rw [parseUEscape, hex4Val_hex4 n h]
  dsimp only
  rw [if_neg hs]

/-- Reading back an emitted high-surrogate `\uXXXX` waits for the pair. -/
theorem parseUEscape_hi (k : StrK) (n : Nat) (s : List Char) (h : n < 0x10000)
    (hs : 0xd800 ≤ n ∧ n ≤ 0xdbff) :
    parseUEscape k (hex4 n ++ s) = parseLowSurrogate k n s := by
  rw [hex4]
  show parseUEscape k
    (hexDigitChar (n / 4096 % 16) :: hexDigitChar (n / 256 % 16)
      :: hexDigitChar (n / 16 % 16) :: hexDigitChar (n % 16) :: s) = _
  rw [parseUEscape, hex4Val_hex4 n h]
  dsimp only
  rw [if_pos hs]

/-- Reading back an emitted low-surrogate `\uXXXX` recombines the pair. -/
theorem parseLowSurrogate_pair (k : StrK) (u u2 : Nat) (s : List Char)
    (h : u2 < 0x10000) (hlo : 0xdc00 ≤ u2 ∧ u2 ≤ 0xdfff) :
    parseLowSurrogate k u ('\\' :: 'u' :: (hex4 u2 ++ s))
      = (k s).map fun p =>
          (Char.ofNat (0x10000 + (u - 0xd800) * 0x400 + (u2 - 0xdc00)) :: p.1, p.2) := by
  rw [hex4]
  show parseLowSurrogate k u
    ('\\' :: 'u' :: hexDigitChar (u2 / 4096 % 16) :: hexDigitChar (u2 / 256 % 16)
      :: hexDigitChar (u2 / 16 % 16) :: hexDigitChar (u2 % 16) :: s) = _
  rw [parseLowSurrogate]
  simp only [Char.reduceEq, and_self, reduceIte]
  rw [hex4Val_hex4 u2 h]
  dsimp only
  rw [if_pos hlo]

/-- Parsing one emitted escape prepends exactly the escaped character. -/
theorem parseStringBody_escapeChar (c : Char) (fuel : Nat) (rest : List Char) :
    parseStringBody (fuel + 1) (escapeChar c ++ rest)
      = (parseStringBody fuel rest).map fun p => (c :: p.1, p.2) := by
  rw [escapeChar]
  split_ifs with h1 h2 h3 h4 h5 h6 h7 h8 h9
  · subst h1
    simp only [List.cons_append, List.nil_append]
    rw [psb_bs, parseEscape_q]
  · subst h2
    simp only [List.cons_append, List.nil_append]
    rw [psb_bs, parseEscape_bs]
  · subst h3
    simp only [List.cons_append, List.nil_append]
    rw [psb_bs, parseEscape_b]
  · subst h4
    simp only [List.cons_append, List.nil_append]
    rw [psb_bs, parseEscape_f]
  · subst h5
    simp only [List.cons_append, List.nil_append]
    rw [psb_bs, parseEscape_n]
  · subst h6
    simp only [List.cons_append, List.nil_append]
    rw [psb_bs, parseEscape_r]
  · subst h7
    simp only [List.cons_append, List.nil_append]
    rw [psb_bs, parseEscape_t]
  · -- raw printable character
    show parseStringBody (fuel + 1) (c :: rest) = _
    rw [psb_raw c fuel rest h1 h2 (by omega)]
  · -- basic-plane escape
    have hs : ¬ (0xd800 ≤ c.toNat ∧ c.toNat ≤ 0xdbff) := by
      rcases char_toNat_valid c with h | h <;> omega
    show parseStringBody (fuel + 1)
        ('\\' :: 'u' :: (hex4 c.toNat ++ rest)) = _
    rw [psb_bs, parseEscape_u, parseUEscape_hex _ _ _ (by omega) hs,
      Char.ofNat_toNat]
  · -- astral character: surrogate pair
    have hser : 0x10000 ≤ c.toNat := by omega
    have hub : c.toNat < 0x110000 := by
      rcases char_toNat_valid c with h | h <;> omega
    have hmod := Nat.mod_lt (c.toNat - 0x10000) (show 0 < 0x400 by omega)
    have hhi : 0xd800 ≤ 0xd800 + (c.toNat - 0x10000) / 0x400 ∧
        0xd800 + (c.toNat - 0x10000) / 0x400 ≤ 0xdbff := by omega
    have hlo : 0xdc00 ≤ 0xdc00 + (c.toNat - 0x10000) % 0x400 ∧
        0xdc00 + (c.toNat - 0x10000) % 0x400 ≤ 0xdfff := by omega
    show parseStringBody (fuel + 1)
        ('\\' :: 'u' :: (hex4 (0xd800 + (c.toNat - 0x10000) / 0x400)
          ++ '\\' :: 'u' :: (hex4 (0xdc00 + (c.toNat - 0x10000) % 0x400) ++ rest))) = _
    rw [psb_bs, parseEscape_u, parseUEscape_hi _ _ _ (by omega) hhi,
      parseLowSurrogate_pair _ _ _ _ (by omega) hlo]
    have harith : 0x10000 + (0xd800 + (c.toNat - 0x10000) / 0x400 - 0xd800) * 0x400
        + (0xdc00 + (c.toNat - 0x10000) % 0x400 - 0xdc00) = c.toNat := by omega
    rw [harith, Char.ofNat_toNat]

/-- Every emitted escape is nonempty. -/
theorem escapeChar_length_pos (c : Char) : 0 < (escapeChar c).length := by
  rw [escapeChar]
  split_ifs <;> simp [hex4]

/-- The escaped body is at least as long as the plain text. -/
theorem encBody_length (l : List Char) : l.length ≤ (encBody l).length := by
  induction l with
  | nil => simp [encBody]
  | cons c t ih =>
    show (c :: t).length ≤ (escapeChar c ++ encBody t).length
    simp only [List.length_cons, List.length_append]
    have := escapeChar_length_pos c
    omega

/-- Scanning an emitted string body recovers the text and stops at the
closing quote. -/
theorem parseStringBody_encBody (l : List Char) : ∀ (fuel : Nat) (rest : List Char),
    l.length < fuel →
    parseStringBody fuel (encBody l ++ '"' :: rest) = some (l, rest) := by
  induction l with
  | nil =>
    intro fuel rest h
    obtain ⟨f, rfl⟩ : ∃ f, fuel = f + 1 := ⟨fuel - 1, by omega⟩
    show parseStringBody (f + 1) ('"' :: rest) = some ([], rest)
    rw [psb_quote]
  | cons c t ih =>
    intro fuel rest h
    obtain ⟨f, rfl⟩ : ∃ f, fuel = f + 1 := ⟨fuel - 1, by omega⟩
    show parseStringBody (f + 1) ((escapeChar c ++ encBody t) ++ '"' :: rest) = _
    rw [List.append_assoc, parseStringBody_escapeChar,
      ih f rest (by simpa using Nat.lt_of_succ_lt_succ h)]
    rfl

/-- A digit character written as `Char.ofNat (48 + m)` evaluates as expected. -/
theorem digitChar_toNat (m : Nat) (h : m < 10) :
    (Char.ofNat (48 + m)).toNat = 48 + m := by
  interval_cases m <;> decide

/-- A digit character satisfies `Char.isDigit`. -/
theorem digitChar_isDigit (m : Nat) (h : m < 10) :
    (Char.ofNat (48 + m)).isDigit = true := by
  interval_cases m <;> decide

/-- A digit is none of the characters the scanner dispatches on. -/
theorem isDigit_ne (ch : Char) (hdig : ch.isDigit = true) :
    ch ≠ 'n' ∧ ch ≠ 't' ∧ ch ≠ 'f' ∧ ch ≠ '"' ∧ ch ≠ '[' ∧ ch ≠ '\x7b' ∧ ch ≠ '-' ∧
      ch ≠ ']' ∧ ch ≠ '\x7d' ∧ ch ≠ ',' ∧ ch ≠ ':' ∧ isJsonWs ch = false := by
  have hsp : ch ≠ ' ' := fun hne => absurd hdig (by subst hne; decide)
  have hta : ch ≠ '\t' := fun hne => absurd hdig (by subst hne; decide)
  have hnl : ch ≠ '\n' := fun hne => absurd hdig (by subst hne; decide)
  have hcr : ch ≠ '\x0d' := fun hne => absurd hdig (by subst hne; decide)
  refine ⟨fun hne => absurd hdig (by subst hne; decide),
    fun hne => absurd hdig (by subst hne; decide),
    fun hne => absurd hdig (by subst hne; decide),
    fun hne => absurd hdig (by subst hne; decide),
    fun hne => absurd hdig (by subst hne; decide),
    fun hne => absurd hdig (by subst hne; decide),
    fun hne => absurd hdig (by subst hne; decide),
    fun hne => absurd hdig (by subst hne; decide),
    fun hne => absurd hdig (by subst hne; decide),
    fun hne => absurd hdig (by subst hne; decide),
    fun hne => absurd hdig (by subst hne; decide), ?_⟩
  simp [isJsonWs, hsp, hta, hnl, hcr]

/-- Every character `natDigits` emits is a digit. -/
theorem natDigits_all_digits (n : Nat) : ∀ c ∈ natDigits n, c.isDigit = true := by
  induction n using Nat.strong_induction_on with
  | _ n ih =>
    rw [natDigits]
    split_ifs with h
    · intro c hc
      simp only [List.mem_singleton] at hc
      subst hc
      exact digitChar_isDigit _ (Nat.mod_lt _ (by omega))
    · intro c hc
      rcases List.mem_append.mp hc with hc | hc
      · exact ih (n / 10) (Nat.div_lt_self (by omega) (by omega)) c hc
      · simp only [List.mem_singleton] at hc
        subst hc
        exact digitChar_isDigit _ (Nat.mod_lt _ (by omega))

/-- `natDigits` never returns the empty list. -/
theorem natDigits_ne_nil (n : Nat) : natDigits n ≠ [] := by
  rw [natDigits]
  split_ifs with h
  · simp
  · simp

/-- The leading digit of a nonzero number is not `'0'`. -/
theorem natDigits_head_ne_zero (n : Nat) (hn : n ≠ 0) :
    ∀ c t, natDigits n = c :: t → c ≠ '0' := by
  induction n using Nat.strong_induction_on with
  | _ n ih =>
    rw [natDigits]
    split_ifs with h
    · intro c t hct
      have hc : c = Char.ofNat (48 + n % 10) := by
        simpa using congrArg (fun l => l.headD 'x') hct.symm
      subst hc
      intro he
      have := congrArg Char.toNat he
      rw [digitChar_toNat _ (Nat.mod_lt _ (by omega))] at this
      have : n % 10 = 0 := by
        have h48 : ('0' : Char).toNat = 48 := by decide
        omega
      omega
    · intro c t hct
      obtain ⟨c', t', hct'⟩ : ∃ c' t', natDigits (n / 10) = c' :: t' := by
        cases hh : natDigits (n / 10) with
        | nil => exact absurd hh (natDigits_ne_nil _)
        | cons a b => exact ⟨a, b, rfl⟩
      rw [hct'] at hct
      simp only [List.cons_append, List.cons.injEq] at hct
      rw [← hct.1]
      exact ih (n / 10) (Nat.div_lt_self (by omega) (by omega))
        (by omega) c' t' hct'

/-- Folding the decimal digits recovers the number. -/
theorem natDigits_foldl (n : Nat) : ∀ acc : Nat,
    (natDigits n).foldl (fun a ch => a * 10 + (ch.toNat - 48)) acc
      = acc * 10 ^ (natDigits n).length + n := by
  induction n using Nat.strong_induction_on with
  | _ n ih =>
    intro acc
    rw [natDigits]
    split_ifs with h
    · simp only [List.foldl_cons, List.foldl_nil, List.length_singleton]
      rw [digitChar_toNat _ (Nat.mod_lt _ (by omega))]
      have : n % 10 = n := Nat.mod_eq_of_lt h
      omega
    · rw [List.foldl_append, List.length_append,
        ih (n / 10) (Nat.div_lt_self (by omega) (by omega)) acc]
      simp only [List.foldl_cons, List.foldl_nil, List.length_singleton]
      rw [digitChar_toNat _ (Nat.mod_lt _ (by omega))]
      have hmod : n % 10 < 10 := Nat.mod_lt _ (by omega)
      have hdm : 10 * (n / 10) + n % 10 = n := Nat.div_add_mod n 10
      rw [pow_succ]
      ring_nf
      omega

/-- `takeWhile`/`dropWhile` split exactly at an all-true prefix followed by a
failing head. -/
theorem takeWhile_append_not (p : Char → Bool) : ∀ (l rest : List Char),
    (∀ c ∈ l, p c = true) → (∀ c t, rest = c :: t → p c = false) →
    (l ++ rest).takeWhile p = l ∧ (l ++ rest).dropWhile p = rest := by
  intro l
  induction l with
  | nil =>
    intro rest _ hr
    cases rest with
    | nil => simp
    | cons c t => simp [List.takeWhile_cons, List.dropWhile_cons, hr c t rfl]
  | cons c l ih =>
    intro rest hl hr
    have hc : p c = true := hl c (by simp)
    have hrec := ih rest (fun d hd => hl d (by simp [hd])) hr
    simp [List.takeWhile_cons, List.dropWhile_cons, hc, hrec.1, hrec.2]

/-- What may follow a serialized number so that the scanner's regex stops
exactly at its end: nothing, or a non-digit that is not `'.'`, `'e'`, `'E'`. -/
def numDelim (s : List Char) : Prop :=
  ∀ c t, s = c :: t → c.isDigit = false ∧ c ≠ '.' ∧ c ≠ 'e' ∧ c ≠ 'E'

/-- The number token of an emitted natural, followed by a delimiter, scans
back to the same natural. -/
theorem parseIntToken_natDigits (n : Nat) (rest : List Char) (hd : numDelim rest) :
    parseIntToken (natDigits n ++ rest) = some (n, rest) := by
  by_cases hn : n = 0
  · subst hn
    have h0 : natDigits 0 = ['0'] := by rw [natDigits]; norm_num
    rw [h0]
    show parseIntToken ('0' :: rest) = some (0, rest)
    unfold parseIntToken
    dsimp only
    rw [if_pos rfl]
    cases rest with
    | nil => rfl
    | cons c2 t2 =>
      obtain ⟨-, hdot, he, hE⟩ := hd c2 t2 rfl
      dsimp only
      rw [if_neg (show ¬ (c2 = '.' ∨ c2 = 'e' ∨ c2 = 'E') by simp [hdot, he, hE])]
  · obtain ⟨c, t, hct⟩ : ∃ c t, natDigits n = c :: t := by
      cases hh : natDigits n with
      | nil => exact absurd hh (natDigits_ne_nil _)
      | cons a b => exact ⟨a, b, rfl⟩
    have hc0 : c ≠ '0' := natDigits_head_ne_zero n hn c t hct
    have hsplit := takeWhile_append_not Char.isDigit (natDigits n) rest
      (natDigits_all_digits n) (fun d u hdu => (hd d u hdu).1)
    rw [hct]
    show parseIntToken (c :: (t ++ rest)) = some (n, rest)
    unfold parseIntToken
    dsimp only
    rw [if_neg hc0]
    have hjoin : c :: (t ++ rest) = natDigits n ++ rest := by rw [hct]; rfl
    simp only [hjoin, hsplit.1, hsplit.2]
    rw [if_neg (by rw [hct]; simp)]
    have hfold : (natDigits n).foldl (fun a ch => a * 10 + (ch.toNat - 48)) 0 = n := by
      rw [natDigits_foldl n 0]
      simp
    cases rest with
    | nil => simp [hfold]
    | cons c2 t2 =>
      obtain ⟨-, hdot, he, hE⟩ := hd c2 t2 rfl
      dsimp only
      rw [if_neg (show ¬ (c2 = '.' ∨ c2 = 'e' ∨ c2 = 'E') by simp [hdot, he, hE])]
      simp [hfold]

/-- Skipping whitespace passes over one whitespace character. -/
theorem skipWs_cons_ws (c : Char) (l : List Char) (h : isJsonWs c = true) :
    skipWs (c :: l) = skipWs l := by
  simp [skipWs, List.dropWhile_cons, h]

/-- Skipping whitespace passes over an indentation run. -/
theorem skipWs_replicate (m : Nat) (l : List Char) :
    skipWs (List.replicate m ' ' ++ l) = skipWs l := by
  induction m with
  | zero => rfl
  | succ m ih =>
    rw [List.replicate_succ, List.cons_append, skipWs_cons_ws _ _ (by decide), ih]

/-- Skipping whitespace stops at a non-whitespace head. -/
theorem skipWs_not (c : Char) (l : List Char) (h : isJsonWs c = false) :
    skipWs (c :: l) = c :: l := by
  simp [skipWs, List.dropWhile_cons, h]

/-- Skipping whitespace passes a newline and its indentation. -/
theorem skipWs_nl (m : Nat) (l : List Char) :
    skipWs ('\n' :: (List.replicate m ' ' ++ l)) = skipWs l := by
  rw [skipWs_cons_ws _ _ (by decide), skipWs_replicate]

/-- `numDelim` holds for the empty remainder. -/
theorem numDelim_nil : numDelim [] := fun _ _ h => nomatch h

/-- `numDelim` holds when the head is a known delimiter. -/
theorem numDelim_cons (c : Char) (t : List Char) (h1 : c.isDigit = false)
    (h2 : c ≠ '.') (h3 : c ≠ 'e') (h4 : c ≠ 'E') : numDelim (c :: t) := by
  intro c' t' he
  injection he with h5 h6
  subst h5
  exact ⟨h1, h2, h3, h4⟩

/-- Scanning an emitted `null`. -/
theorem parseVal_null (fuel : Nat) (rest : List Char) :
    parseVal (fuel + 1) (['n', 'u', 'l', 'l'] ++ rest) = some (.null, rest) := rfl

/-- Scanning an emitted `true`. -/
theorem parseVal_true (fuel : Nat) (rest : List Char) :
    parseVal (fuel + 1) (['t', 'r', 'u', 'e'] ++ rest) = some (.bool true, rest) := rfl

/-- Scanning an emitted `false`. -/
theorem parseVal_false (fuel : Nat) (rest : List Char) :
    parseVal (fuel + 1) (['f', 'a', 'l', 's', 'e'] ++ rest)
      = some (.bool false, rest) := rfl

/-- Scanning an emitted integer. -/
theorem parseVal_int (i : Int) (fuel : Nat) (rest : List Char) (hd : numDelim rest) :
    parseVal (fuel + 1) (intChars i ++ rest) = some (.int i, rest) := by
  by_cases hneg : i < 0
  · have hi : intChars i = '-' :: natDigits i.natAbs := by
      simp [intChars, hneg]
    rw [hi]
    show parseVal (fuel + 1) ('-' :: (natDigits i.natAbs ++ rest)) = _
    rw [parseVal.eq_def]
    dsimp only
    rw [if_neg (by decide), if_neg (by decide), if_neg (by decide),
      if_neg (by decide), if_neg (by decide), if_neg (by decide), if_pos rfl,
      parseIntToken_natDigits _ _ hd]
    have : -(↑i.natAbs : Int) = i := by omega
    dsimp only [Option.map]
    rw [this]
  · have hi : intChars i = natDigits i.natAbs := by
      simp [intChars, hneg]
    obtain ⟨c, t, hct⟩ : ∃ c t, natDigits i.natAbs = c :: t := by
      cases hh : natDigits i.natAbs with
      | nil => exact absurd hh (natDigits_ne_nil _)
      | cons a b => exact ⟨a, b, rfl⟩
    have hdig : c.isDigit = true :=
      natDigits_all_digits i.natAbs c (by rw [hct]; simp)
    obtain ⟨hn, ht, hf, hq, hlb, hob, hm, -, -, -, -, -⟩ := isDigit_ne c hdig
    rw [hi, hct]
    show parseVal (fuel + 1) (c :: (t ++ rest)) = _
    rw [parseVal.eq_def]
    dsimp only
    rw [if_neg hn, if_neg ht, if_neg hf, if_neg hq, if_neg hlb, if_neg hob,
      if_neg hm, if_pos hdig]
    have hjoin : c :: (t ++ rest) = natDigits i.natAbs ++ rest := by rw [hct]; rfl
    rw [hjoin, parseIntToken_natDigits _ _ hd]
    have : (↑i.natAbs : Int) = i := by omega
    dsimp only [Option.map]
    rw [this]

/-- Scanning an emitted string literal. -/
theorem parseVal_str (s : String) (fuel : Nat) (rest : List Char) :
    parseVal (fuel + 1) (encStr s ++ rest) = some (.str s, rest) := by
  have hsh : encStr s ++ rest = '"' :: (encBody s.data ++ '"' :: rest) := by
    simp [encStr]
  rw [hsh, parseVal.eq_def]
  dsimp only
  rw [if_neg (by decide), if_neg (by decide), if_neg (by decide), if_pos rfl,
    parseStringBody_encBody s.data _ rest
      (by simp only [List.length_append, List.length_cons]
          have := encBody_length s.data
          omega)]
  rfl

/-- The first character of any serialized value is not whitespace and not a
closing bracket, so whitespace skipping stops exactly at the value and the
empty-container fast paths do not fire on it. -/
theorem dumpVal_head (v : Json) (d : Nat) : ∃ c t, dumpVal v d = c :: t ∧
    isJsonWs c = false ∧ c ≠ ']' ∧ c ≠ '\x7d' := by
  cases v with
  | null => refine ⟨'n', _, rfl, ?_, ?_, ?_⟩ <;> decide
  | bool b => cases b with
    | true => refine ⟨'t', _, rfl, ?_, ?_, ?_⟩ <;> decide
    | false => refine ⟨'f', _, rfl, ?_, ?_, ?_⟩ <;> decide
  | int i =>
    by_cases hneg : i < 0
    · refine ⟨'-', natDigits i.natAbs, show intChars i = _ from by simp [intChars, hneg], by decide, by decide, by decide⟩
    · obtain ⟨c, t, hct⟩ : ∃ c t, natDigits i.natAbs = c :: t := by
        cases hh : natDigits i.natAbs with
        | nil => exact absurd hh (natDigits_ne_nil _)
        | cons a b => exact ⟨a, b, rfl⟩
      have hdig : c.isDigit = true :=
        natDigits_all_digits i.natAbs c (by rw [hct]; simp)
      obtain ⟨-, -, -, -, -, -, -, hrb, hrc, -, -, hws⟩ := isDigit_ne c hdig
      refine ⟨c, t, ?_, hws, hrb, hrc⟩
      show intChars i = _
      simp [intChars, hneg, hct]
  | str s => refine ⟨'"', _, rfl, ?_, ?_, ?_⟩ <;> decide
  | arr l => cases l with
    | nil => refine ⟨'[', _, rfl, ?_, ?_, ?_⟩ <;> decide
    | cons x xs => refine ⟨'[', _, rfl, ?_, ?_, ?_⟩ <;> decide
  | obj l => cases l with
    | nil => refine ⟨'\x7b', _, rfl, ?_, ?_, ?_⟩ <;> decide
    | cons kv kvs => refine ⟨'\x7b', _, rfl, ?_, ?_, ?_⟩ <;> decide

mutual

/-- Fuel measure of a value for the scanner's recursion. -/
def jsize : Json → Nat
  | .null => 1
  | .bool _ => 1
  | .int _ => 1
  | .str _ => 1
  | .arr l => 1 + lsize l
  | .obj l => 1 + osize l

/-- Fuel measure of an array body. -/
def lsize : List Json → Nat
  | [] => 1
  | x :: xs => 1 + jsize x + lsize xs

/-- Fuel measure of an object body. -/
def osize : List (String × Json) → Nat
  | [] => 1
  | kv :: kvs => 1 + jsize kv.2 + osize kvs

end

/-- Every value has positive measure. -/
theorem jsize_pos (v : Json) : 1 ≤ jsize v := by
  cases v <;> simp [jsize]

/-- Round trip of the scanner against the serializer: one fuel induction
covering values, array bodies and object bodies. -/
theorem rt_all : ∀ fuel : Nat,
    (∀ v d rest, jsize v ≤ fuel → numDelim rest →
      parseVal fuel (dumpVal v d ++ rest) = some (v, rest))
  ∧ (∀ x xs d m rest, 1 + jsize x + lsize xs ≤ fuel → numDelim rest →
      parseArrItems fuel
        (dumpVal x d ++ (dumpArrTail xs d
          ++ '\n' :: (List.replicate m ' ' ++ ']' :: rest)))
        = some (x :: xs, rest))
  ∧ (∀ kstr v2 kvs d m rest, 1 + jsize v2 + osize kvs ≤ fuel → numDelim rest →
      parseObjItems fuel
        (encStr kstr ++ ':' :: ' ' :: (dumpVal v2 d ++ (dumpObjTail kvs d
          ++ '\n' :: (List.replicate m ' ' ++ '\x7d' :: rest))))
        = some ((kstr, v2) :: kvs, rest)) := by
  intro fuel
  induction fuel with
  | zero =>
    refine ⟨?_, ?_, ?_⟩
    · intro v d rest hle _
      have := jsize_pos v
      omega
    · intro x xs d m rest hle _
      omega
    · intro kstr v2 kvs d m rest hle _
      omega
  | succ fuel ih =>
    obtain ⟨ihv, iha, iho⟩ := ih
    refine ⟨?_, ?_, ?_⟩
    · intro v d rest hle hnd
      cases v with
      | null => exact parseVal_null fuel rest
      | bool b =>
        cases b with
        | true => exact parseVal_true fuel rest
        | false => exact parseVal_false fuel rest
      | int i => exact parseVal_int i fuel rest hnd
      | str s => exact parseVal_str s fuel rest
      | arr l =>
        cases l with
        | nil =>
          show parseVal (fuel + 1) ('[' :: ']' :: rest) = some (.arr [], rest)
          rw [parseVal.eq_def]
          dsimp only
          rw [if_neg (by decide), if_neg (by decide), if_neg (by decide),
            if_neg (by decide), if_pos rfl, skipWs_not ']' rest (by decide)]
          dsimp only
          rw [if_pos rfl]
        | cons x xs =>
          have hsh : dumpVal (.arr (x :: xs)) d ++ rest
              = '[' :: '\n' :: (List.replicate (2 * (d + 1)) ' '
                ++ (dumpVal x (d + 1) ++ (dumpArrTail xs (d + 1)
                  ++ '\n' :: (List.replicate (2 * d) ' ' ++ ']' :: rest)))) := by
            show ('[' :: '\n' :: (List.replicate (2 * (d + 1)) ' '
              ++ dumpVal x (d + 1) ++ dumpArrTail xs (d + 1)
              ++ '\n' :: (List.replicate (2 * d) ' ' ++ [']']))) ++ rest = _
            simp [List.append_assoc]
          rw [hsh, parseVal.eq_def]
          dsimp only
          rw [if_neg (by decide), if_neg (by decide), if_neg (by decide),
            if_neg (by decide), if_pos rfl, skipWs_nl]
          obtain ⟨c, t, hx, hws, hrb, hrc⟩ := dumpVal_head x (d + 1)
          rw [hx, List.cons_append, skipWs_not c _ hws]
          dsimp only
          rw [if_neg hrb, ← List.cons_append, ← hx,
            iha x xs (d + 1) (2 * d) rest
              (by simp [jsize, lsize] at hle; omega) hnd]
          rfl
      | obj l =>
        cases l with
        | nil =>
          show parseVal (fuel + 1) ('\x7b' :: '\x7d' :: rest) = some (.obj [], rest)
          rw [parseVal.eq_def]
          dsimp only
          rw [if_neg (by decide), if_neg (by decide), if_neg (by decide),
            if_neg (by decide), if_neg (by decide), if_pos rfl,
            skipWs_not '\x7d' rest (by decide)]
          dsimp only
          rw [if_pos rfl]
        | cons kv kvs =>
          have hsh : dumpVal (.obj (kv :: kvs)) d ++ rest
              = '\x7b' :: '\n' :: (List.replicate (2 * (d + 1)) ' '
                ++ (encStr kv.1 ++ ':' :: ' ' :: (dumpVal kv.2 (d + 1)
                  ++ (dumpObjTail kvs (d + 1)
                    ++ '\n' :: (List.replicate (2 * d) ' ' ++ '\x7d' :: rest))))) := by
            show ('\x7b' :: '\n' :: (List.replicate (2 * (d + 1)) ' '
              ++ encStr kv.1 ++ ':' :: ' ' :: (dumpVal kv.2 (d + 1)
                ++ dumpObjTail kvs (d + 1)
                ++ '\n' :: (List.replicate (2 * d) ' ' ++ ['\x7d'])))) ++ rest = _
            simp [List.append_assoc]
          rw [hsh, parseVal.eq_def]
          dsimp only
          rw [if_neg (by decide), if_neg (by decide), if_neg (by decide),
            if_neg (by decide), if_neg (by decide), if_pos rfl, skipWs_nl]
          have hks : encStr kv.1 ++ ':' :: ' ' :: (dumpVal kv.2 (d + 1)
              ++ (dumpObjTail kvs (d + 1)
                ++ '\n' :: (List.replicate (2 * d) ' ' ++ '\x7d' :: rest)))
              = '"' :: ((encBody kv.1.data ++ ['"'])
                ++ ':' :: ' ' :: (dumpVal kv.2 (d + 1)
                  ++ (dumpObjTail kvs (d + 1)
                    ++ '\n' :: (List.replicate (2 * d) ' ' ++ '\x7d' :: rest)))) := by
            simp [encStr]
          rw [hks, skipWs_not '"' _ (by decide)]
          dsimp only
          rw [if_neg (by decide), ← hks,
            iho kv.1 kv.2 kvs (d + 1) (2 * d) rest
              (by simp [jsize, osize] at hle; omega) hnd]
          rfl
    · intro x xs d m rest hle hnd
      have hT : numDelim (dumpArrTail xs d
          ++ '\n' :: (List.replicate m ' ' ++ ']' :: rest)) := by
        cases xs with
        | nil =>
          rw [show dumpArrTail [] d = [] from rfl, List.nil_append]
          exact numDelim_cons '\n' _ (by decide) (by decide) (by decide) (by decide)
        | cons a b =>
          rw [show dumpArrTail (a :: b) d
            = ',' :: '\n' :: (List.replicate (2 * d) ' ' ++ dumpVal a d
              ++ dumpArrTail b d) from rfl, List.cons_append]
          exact numDelim_cons ',' _ (by decide) (by decide) (by decide) (by decide)
      rw [parseArrItems.eq_def]
      dsimp only
      rw [ihv x d _ (by omega) hT]
      dsimp only
      cases xs with
      | nil =>
        rw [show dumpArrTail [] d = [] from rfl, List.nil_append, skipWs_nl,
          skipWs_not ']' rest (by decide)]
        dsimp only
        rw [if_neg (by decide), if_pos rfl]
      | cons x2 xs2 =>
        rw [show dumpArrTail (x2 :: xs2) d
          = ',' :: '\n' :: (List.replicate (2 * d) ' ' ++ dumpVal x2 d
            ++ dumpArrTail xs2 d) from rfl]
        have hsh : (',' :: '\n' :: (List.replicate (2 * d) ' ' ++ dumpVal x2 d
            ++ dumpArrTail xs2 d))
            ++ '\n' :: (List.replicate m ' ' ++ ']' :: rest)
            = ',' :: '\n' :: (List.replicate (2 * d) ' '
              ++ (dumpVal x2 d ++ (dumpArrTail xs2 d
                ++ '\n' :: (List.replicate m ' ' ++ ']' :: rest)))) := by
          simp [List.append_assoc]
        rw [hsh, skipWs_not ',' _ (by decide)]
        dsimp only
        rw [if_pos rfl, skipWs_nl]
        obtain ⟨c, t, hx2, hws, hrb, hrc⟩ := dumpVal_head x2 d
        rw [hx2, List.cons_append, skipWs_not c _ hws, ← List.cons_append, ← hx2,
          iha x2 xs2 d m rest (by simp [lsize] at hle; omega) hnd]
        rfl
    · intro kstr v2 kvs d m rest hle hnd
      have hW : numDelim (dumpObjTail kvs d
          ++ '\n' :: (List.replicate m ' ' ++ '\x7d' :: rest)) := by
        cases kvs with
        | nil =>
          rw [show dumpObjTail [] d = [] from rfl, List.nil_append]
          exact numDelim_cons '\n' _ (by decide) (by decide) (by decide) (by decide)
        | cons kv2 kvs2 =>
          rw [show dumpObjTail (kv2 :: kvs2) d
            = ',' :: '\n' :: (List.replicate (2 * d) ' ' ++ encStr kv2.1
              ++ ':' :: ' ' :: (dumpVal kv2.2 d ++ dumpObjTail kvs2 d)) from rfl,
            List.cons_append]
          exact numDelim_cons ',' _ (by decide) (by decide) (by decide) (by decide)
      have hks : encStr kstr ++ ':' :: ' ' :: (dumpVal v2 d ++ (dumpObjTail kvs d
          ++ '\n' :: (List.replicate m ' ' ++ '\x7d' :: rest)))
          = '"' :: (encBody kstr.data
            ++ '"' :: ':' :: ' ' :: (dumpVal v2 d ++ (dumpObjTail kvs d
              ++ '\n' :: (List.replicate m ' ' ++ '\x7d' :: rest)))) := by
        simp [encStr]
      rw [hks, parseObjItems.eq_def]
      dsimp only
      rw [if_pos rfl,
        parseStringBody_encBody kstr.data _ _
          (by simp only [List.length_append, List.length_cons]
              have := encBody_length kstr.data
              omega)]
      dsimp only
      rw [skipWs_not ':' _ (by decide)]
      dsimp only
      rw [if_pos rfl, skipWs_cons_ws ' ' _ (by decide)]
      obtain ⟨c, t, hv, hws, hrb, hrc⟩ := dumpVal_head v2 d
      rw [hv, List.cons_append, skipWs_not c _ hws, ← List.cons_append, ← hv,
        ihv v2 d _ (by omega) hW]
      dsimp only
      cases kvs with
      | nil =>
        rw [show dumpObjTail [] d = [] from rfl, List.nil_append, skipWs_nl,
          skipWs_not '\x7d' rest (by decide)]
        dsimp only
        rw [if_neg (by decide), if_pos rfl]
      | cons kv2 kvs2 =>
        rw [show dumpObjTail (kv2 :: kvs2) d
          = ',' :: '\n' :: (List.replicate (2 * d) ' ' ++ encStr kv2.1
            ++ ':' :: ' ' :: (dumpVal kv2.2 d ++ dumpObjTail kvs2 d)) from rfl]
        have hsh : (',' :: '\n' :: (List.replicate (2 * d) ' ' ++ encStr kv2.1
            ++ ':' :: ' ' :: (dumpVal kv2.2 d ++ dumpObjTail kvs2 d)))
            ++ '\n' :: (List.replicate m ' ' ++ '\x7d' :: rest)
            = ',' :: '\n' :: (List.replicate (2 * d) ' '
              ++ (encStr kv2.1 ++ ':' :: ' ' :: (dumpVal kv2.2 d
                ++ (dumpObjTail kvs2 d
                  ++ '\n' :: (List.replicate m ' ' ++ '\x7d' :: rest))))) := by
          simp [List.append_assoc]
        rw [hsh, skipWs_not ',' _ (by decide)]
        dsimp only
        rw [if_pos rfl, skipWs_nl]
        have hk2 : encStr kv2.1 ++ ':' :: ' ' :: (dumpVal kv2.2 d
            ++ (dumpObjTail kvs2 d
              ++ '\n' :: (List.replicate m ' ' ++ '\x7d' :: rest)))
            = '"' :: ((encBody kv2.1.data ++ ['"'])
              ++ ':' :: ' ' :: (dumpVal kv2.2 d
                ++ (dumpObjTail kvs2 d
                  ++ '\n' :: (List.replicate m ' ' ++ '\x7d' :: rest)))) := by
          simp [encStr]
        rw [hk2, skipWs_not '"' _ (by decide), ← hk2,
          iho kv2.1 kv2.2 kvs2 d m rest (by simp [osize] at hle; omega) hnd]
        rfl

/-- An array body's fuel measure is positive. -/
theorem lsize_pos (xs : List Json) : 1 ≤ lsize xs := by
  cases xs <;> simp [lsize] <;> omega

/-- An object body's fuel measure is positive. -/
theorem osize_pos (kvs : List (String × Json)) : 1 ≤ osize kvs := by
  cases kvs <;> simp [osize] <;> omega

/-- A serialized integer is nonempty. -/
theorem intChars_length_pos (i : Int) : 1 ≤ (intChars i).length := by
  have hne := natDigits_ne_nil i.natAbs
  have : 1 ≤ (natDigits i.natAbs).length := List.length_pos.mpr hne
  simp only [intChars, List.length_append]
  split_ifs <;> simp <;> omega

/-- The fuel measure of a value never exceeds the length of its serialized
text, so the scanner's input-length fuel always suffices. -/
theorem jbound : ∀ k : Nat,
    (∀ v d, jsize v ≤ k → jsize v ≤ (dumpVal v d).length)
  ∧ (∀ xs d, lsize xs ≤ k → lsize xs ≤ (dumpArrTail xs d).length + 1)
  ∧ (∀ kvs d, osize kvs ≤ k → osize kvs ≤ (dumpObjTail kvs d).length + 1) := by
  intro k
  induction k with
  | zero =>
    refine ⟨?_, ?_, ?_⟩
    · intro v d hle
      have := jsize_pos v
      omega
    · intro xs d hle
      have := lsize_pos xs
      omega
    · intro kvs d hle
      have := osize_pos kvs
      omega
  | succ k ih =>
    obtain ⟨ihv, iha, iho⟩ := ih
    refine ⟨?_, ?_, ?_⟩
    · intro v d hle
      cases v with
      | null => simp [jsize, dumpVal]
      | bool b => cases b <;> simp [jsize, dumpVal]
      | int i =>
        have := intChars_length_pos i
        simp only [jsize]
        show 1 ≤ (intChars i).length
        omega
      | str s => simp [jsize, dumpVal, encStr]
      | arr l =>
        cases l with
        | nil => simp [jsize, lsize, dumpVal]
        | cons x xs =>
          have hx : jsize x ≤ (dumpVal x (d + 1)).length := by
            refine ihv x (d + 1) ?_
            simp [jsize, lsize] at hle
            have := lsize_pos xs
            omega
          have hxs : lsize xs ≤ (dumpArrTail xs (d + 1)).length + 1 := by
            refine iha xs (d + 1) ?_
            simp [jsize, lsize] at hle
            have := jsize_pos x
            omega
          simp only [jsize, lsize, dumpVal, List.length_cons, List.length_append,
            List.length_replicate] at hx hxs ⊢
          omega
      | obj l =>
        cases l with
        | nil => simp [jsize, osize, dumpVal]
        | cons kv kvs =>
          have hx : jsize kv.2 ≤ (dumpVal kv.2 (d + 1)).length := by
            refine ihv kv.2 (d + 1) ?_
            simp [jsize, osize] at hle
            have := osize_pos kvs
            omega
          have hxs : osize kvs ≤ (dumpObjTail kvs (d + 1)).length + 1 := by
            refine iho kvs (d + 1) ?_
            simp [jsize, osize] at hle
            have := jsize_pos kv.2
            omega
          simp only [jsize, osize, dumpVal, List.length_cons, List.length_append,
            List.length_replicate] at hx hxs ⊢
          omega
    · intro xs d hle
      cases xs with
      | nil => simp [lsize, dumpArrTail]
      | cons x xs2 =>
        have hx : jsize x ≤ (dumpVal x d).length := by
          refine ihv x d ?_
          simp [lsize] at hle
          have := lsize_pos xs2
          omega
        have hxs : lsize xs2 ≤ (dumpArrTail xs2 d).length + 1 := by
          refine iha xs2 d ?_
          simp [lsize] at hle
          have := jsize_pos x
          omega
        simp only [lsize, dumpArrTail, List.length_cons, List.length_append,
          List.length_replicate] at hx hxs ⊢
        omega
    · intro kvs d hle
      cases kvs with
      | nil => simp [osize, dumpObjTail]
      | cons kv kvs2 =>
        have hx : jsize kv.2 ≤ (dumpVal kv.2 d).length := by
          refine ihv kv.2 d ?_
          simp [osize] at hle
          have := osize_pos kvs2
          omega
        have hxs : osize kvs2 ≤ (dumpObjTail kvs2 d).length + 1 := by
          refine iho kvs2 d ?_
          simp [osize] at hle
          have := jsize_pos kv.2
          omega
        simp only [osize, dumpObjTail, List.length_cons, List.length_append,
          List.length_replicate] at hx hxs ⊢
        omega

/-- Parsing back a dumped value yields exactly that value. -/
theorem loads_dumps (v : Json) : loads (dumps v) = some v := by
  obtain ⟨c, t, hv, hws, -, -⟩ := dumpVal_head v 0
  have hskip : skipWs (dumps v).data = dumpVal v 0 := by
    show skipWs (dumpVal v 0) = dumpVal v 0
    rw [hv, skipWs_not c t hws]
  have hfuel : jsize v ≤ (dumpVal v 0).length + 1 := by
    have := (jbound (jsize v)).1 v 0 le_rfl
    omega
  have hparse : parseVal ((dumpVal v 0).length + 1) (dumpVal v 0) = some (v, []) := by
    have := (rt_all ((dumpVal v 0).length + 1)).1 v 0 [] hfuel numDelim_nil
    simpa using this
  rw [loads]
  rw [hskip, hparse]
  dsimp only
  rw [if_pos (show skipWs ([] : List Char) = [] from rfl)]

/-- `save_domains` (main.py): the exact text `json.dump(domains, f, indent=2)`
writes to `domains.json`. -/
def save_domains (domains : List Json) : String := dumps (.arr domains)

/-- `load_domains` (main.py): `json.load` the file if it exists, else `[]`. -/
def load_domains (file : Option String) : Option Json :=
  match file with
  | some s => loads s
  | none => some (.arr [])

/-- `save_databases` (main.py): identical writer for `databases.json`. -/
def save_databases (databases : List Json) : String := dumps (.arr databases)

/-- `load_databases` (main.py): identical reader for `databases.json`. -/
def load_databases (file : Option String) : Option Json :=
  match file with
  | some s => loads s
  | none => some (.arr [])

/-- `save_emails` (main.py): identical writer for `emails.json`. -/
def save_emails (emails : List Json) : String := dumps (.arr emails)

/-- `load_emails` (main.py): identical reader for `emails.json`. -/
def load_emails (file : Option String) : Option Json :=
  match file with
  | some s => loads s
  | none => some (.arr [])

/-- C9: state is persisted as flat JSON files with a faithful round-trip:
for every list of JSON records `ds`, writing it with `save_domains` and
reading the resulting file back with `load_domains` returns exactly the
array of those records, and likewise for `save_databases`/`load_databases`
and `save_emails`/`load_emails` (the serializer is `json.dump(.., indent=2)`
with `ensure_ascii`, the reader is `json.load`, both embedded down to the
character level including string escapes, surrogate pairs and the number
grammar). -/
theorem C9_json_persistence_round_trip : ∀ ds : List Json,
    load_domains (some (save_domains ds)) = some (.arr ds)
  ∧ load_databases (some (save_databases ds)) = some (.arr ds)
  ∧ load_emails (some (save_emails ds)) = some (.arr ds) :=
  fun ds => ⟨loads_dumps (.arr ds), loads_dumps (.arr ds), loads_dumps (.arr ds)⟩
